import Mathlib

/-!
Shallow embedding of the document-control core of this repository
(`src/database.py`, plus the current-revision-label glue in `src/main.py`).

Modelling decisions, each traceable to the source:

* Tables become lists of rows held in a `DB` record, in insertion order
  (SQLite returns rows of an unindexed scan in rowid = insertion order, and
  every id column is AUTOINCREMENT, so `lastrowid` is a per-table counter;
  the counters are the `next…Id` fields).
* Timestamps (`datetime.utcnow().isoformat()`) become `Nat` clock values
  passed explicitly to every operation (`now`); their ordering mirrors the
  lexicographic ordering of the ISO strings used by `ORDER BY … DESC`.
* `get_conn` (src/database.py:168-172) opens a fresh connection WITHOUT
  re-enabling `PRAGMA foreign_keys` (only `init_db` does, on its own
  connection, and the pragma is per-connection), so FOREIGN KEY constraints
  are never enforced at runtime.  UNIQUE and PRIMARY KEY table constraints
  are enforced.  Hence the model checks uniqueness where a table declares
  it, and performs no referential checks.
* Each write function calls `conn.commit()` exactly once, at its end; any
  exception raised earlier propagates with the transaction uncommitted, and
  the connection is discarded, rolling the transaction back.  So a failing
  operation returns the *unchanged* store together with the error.
* The two error shapes reachable in the modelled functions:
  `sqlite3.IntegrityError` from a UNIQUE / PRIMARY KEY violation, and the
  `TypeError` raised by subscripting `fetchone()`'s `None` when a looked-up
  row is absent.
-/

/-- `sqlite3.IntegrityError` (UNIQUE / PRIMARY KEY violation) or the
`TypeError` from `fetchone()[0]` when the row is missing. -/
inductive DBErr where
  | uniqueViolation
  | rowMissing
deriving DecidableEq, Repr

/-- Row of `organizations` (src/database.py:44-49). -/
structure Organization where
  id : Nat
  name : String
  description : String
  created_at : Nat
deriving DecidableEq, Repr

/-- Row of `projects` (src/database.py:68-75). -/
structure Project where
  id : Nat
  name : String
  description : String
  org_id : Nat
  created_at : Nat
deriving DecidableEq, Repr

/-- Row of `documents` (src/database.py:80-93).  `current_revision_id` is a
nullable column. -/
structure Document where
  id : Nat
  doc_number : String
  title : String
  doc_type : String
  status : String
  org_id : Nat
  project_id : Nat
  current_revision_id : Option Nat
  created_at : Nat
deriving DecidableEq, Repr

/-- Row of `document_revisions` (src/database.py:98-107). -/
structure Revision where
  id : Nat
  document_id : Nat
  revision : String
  file_path : String
  uploaded_by : Nat
  uploaded_at : Nat
deriving DecidableEq, Repr

/-- Row of `events` (src/database.py:112-123).  `revision_id` and `notes`
are nullable columns. -/
structure Event where
  id : Nat
  document_id : Nat
  revision_id : Option Nat
  user_id : Nat
  event_type : String
  timestamp : Nat
  notes : Option String
deriving DecidableEq, Repr

/-- Row of `transmittals` (src/database.py:128-139). -/
structure Transmittal where
  id : Nat
  transmittal_number : String
  description : String
  sender_org_id : Nat
  recipient_org_id : Nat
  created_by : Nat
  created_at : Nat
deriving DecidableEq, Repr

/-- Row of `transmittal_documents` (src/database.py:144-151); the table has
`PRIMARY KEY(transmittal_id, revision_id)`. -/
structure TransmittalDocument where
  transmittal_id : Nat
  revision_id : Nat
deriving DecidableEq, Repr

/-- The SQLite store: one list per table (insertion order) plus the
AUTOINCREMENT allocator of each table that the modelled operations insert
into.  The `users` and `sessions` tables are never read or written by the
operations the claims are about and are omitted. -/
structure DB where
  organizations : List Organization
  projects : List Project
  documents : List Document
  revisions : List Revision
  events : List Event
  transmittals : List Transmittal
  transmittal_documents : List TransmittalDocument
  nextDocumentId : Nat
  nextRevisionId : Nat
  nextEventId : Nat
  nextTransmittalId : Nat
deriving DecidableEq, Repr

/-- A freshly initialised store (`init_db` creates empty tables; SQLite
AUTOINCREMENT allocates ids from 1). -/
def DB.empty : DB :=
  { organizations := [], projects := [], documents := [], revisions := [],
    events := [], transmittals := [], transmittal_documents := [],
    nextDocumentId := 1, nextRevisionId := 1, nextEventId := 1,
    nextTransmittalId := 1 }

/-- `get_document` (src/database.py:443-447):
`SELECT * FROM documents WHERE id=?` followed by `fetchone()`. -/
def get_document (db : DB) (doc_id : Nat) : Option Document :=
  db.documents.find? (fun d => d.id == doc_id)

/-- `get_revision` (src/database.py:450-456):
`SELECT * FROM document_revisions WHERE id=?` followed by `fetchone()`. -/
def get_revision (db : DB) (rev_id : Nat) : Option Revision :=
  db.revisions.find? (fun r => r.id == rev_id)

/-- Effect of `UPDATE documents SET current_revision_id=? WHERE id=?` on a
single row. -/
def pointTo (target newRev : Nat) (d : Document) : Document :=
  if d.id == target then { d with current_revision_id := some newRev } else d

/-- The `UPDATE documents SET current_revision_id=? WHERE id=?` statement
(src/database.py:390-392, 420-422, 554-556, 573-575). -/
def repointDoc (docs : List Document) (target newRev : Nat) : List Document :=
  docs.map (pointTo target newRev)

/-- `getCurrentRevisionLabel` of the spec; the source computes it in the
`list_documents` handler (src/main.py:372-379): read the document's
`current_revision_id`, and when it is truthy (`if rev_id:` — false for NULL
and for 0) fetch the revision row and take its `revision` column. -/
def getCurrentRevisionLabel (db : DB) (doc_id : Nat) : Option String :=
  (get_document db doc_id).bind (fun d =>
    d.current_revision_id.bind (fun rid =>
      if rid == 0 then none
      else (get_revision db rid).map (fun r => r.revision)))

/-- `get_revisions_for_document` (src/database.py:459-466):
`SELECT * FROM document_revisions WHERE document_id=? ORDER BY uploaded_at
DESC`.  The `ORDER BY … DESC` is modelled as an insertion sort by the
newest-first relation on `uploaded_at`. -/
def newerFirst (a b : Revision) : Prop := b.uploaded_at ≤ a.uploaded_at

instance : DecidableRel newerFirst :=
  fun a b => inferInstanceAs (Decidable (b.uploaded_at ≤ a.uploaded_at))

def get_revisions_for_document (db : DB) (doc_id : Nat) : List Revision :=
  List.insertionSort newerFirst (db.revisions.filter (fun r => r.document_id == doc_id))

/-- `create_document` (src/database.py:358-400).  Inserts the document row
(the `UNIQUE(doc_number, org_id, project_id)` table constraint raises
`IntegrityError` on a duplicate, rolling the transaction back), then the
initial revision, repoints `current_revision_id`, appends the "Uploaded"
event and commits.  Returns the new document id. -/
def create_document (doc_number title doc_type status : String)
    (org_id project_id : Nat) (revision_label file_path : String)
    (uploaded_by : Nat) (now : Nat) (db : DB) : DB × Except DBErr Nat :=
  if db.documents.any (fun d =>
      d.doc_number == doc_number && d.org_id == org_id && d.project_id == project_id) then
    (db, .error .uniqueViolation)
  else
    let doc_id := db.nextDocumentId
    let newDoc : Document :=
      { id := doc_id, doc_number := doc_number, title := title,
        doc_type := doc_type, status := status, org_id := org_id,
        project_id := project_id, current_revision_id := none,
        created_at := now }
    let s1 := { db with
      documents := db.documents ++ [newDoc], nextDocumentId := doc_id + 1 }
    let rev_id := s1.nextRevisionId
    let newRev : Revision :=
      { id := rev_id, document_id := doc_id, revision := revision_label,
        file_path := file_path, uploaded_by := uploaded_by, uploaded_at := now }
    let s2 := { s1 with
      revisions := s1.revisions ++ [newRev], nextRevisionId := rev_id + 1 }
    let s3 := { s2 with documents := repointDoc s2.documents doc_id rev_id }
    let ev : Event :=
      { id := s3.nextEventId, document_id := doc_id, revision_id := some rev_id,
        user_id := uploaded_by, event_type := "Uploaded", timestamp := now,
        notes := none }
    let s4 := { s3 with
      events := s3.events ++ [ev], nextEventId := s3.nextEventId + 1 }
    (s4, .ok doc_id)

/-- `add_document_revision` (src/database.py:403-430).  No existence check
on `document_id` and no enforced constraint can fire (foreign keys are off
on `get_conn` connections), so the operation always succeeds: it appends
the revision, runs the `UPDATE … WHERE id=?` (a no-op when no document has
that id), appends the "RevisionUploaded" event and commits.  Returns the
new revision id. -/
def add_document_revision (document_id : Nat)
    (revision_label file_path : String) (uploaded_by : Nat) (now : Nat)
    (db : DB) : DB × Nat :=
  let rev_id := db.nextRevisionId
  let newRev : Revision :=
    { id := rev_id, document_id := document_id, revision := revision_label,
      file_path := file_path, uploaded_by := uploaded_by, uploaded_at := now }
  let s1 := { db with
    revisions := db.revisions ++ [newRev], nextRevisionId := rev_id + 1 }
  let s2 := { s1 with documents := repointDoc s1.documents document_id rev_id }
  let ev : Event :=
    { id := s2.nextEventId, document_id := document_id,
      revision_id := some rev_id, user_id := uploaded_by,
      event_type := "RevisionUploaded", timestamp := now, notes := none }
  let s3 := { s2 with
    events := s2.events ++ [ev], nextEventId := s2.nextEventId + 1 }
  (s3, rev_id)

/-- One iteration of the `for rev_id in document_revision_ids` loop of
`create_transmittal` (src/database.py:498-575), acting on the uncommitted
transaction state `s`:

1. insert the `(transmittal_id, revision_id)` link — the composite
   PRIMARY KEY raises `IntegrityError` on a duplicate pair;
2. `SELECT document_id FROM document_revisions WHERE id=?` and subscript
   `fetchone()` — a `TypeError` when the revision row is absent;
3. insert the "Sent" event with the f-string note;
4. `SELECT doc_number, title, doc_type, status, project_id FROM documents
   WHERE id=?` and unpack — a `TypeError` when the document row is absent;
5. look up a recipient-side document with the same
   `(doc_number, org_id, project_id)`;
6. if absent, insert a recipient document plus a replica revision and
   repoint; if present, append the replica revision and repoint.

The source re-reads `revision` and `file_path` from `document_revisions`
by the same id just before inserting the replica (lines 542-547, 561-566);
nothing between the step-2 lookup and those reads touches that table, so
the rows read are exactly `src` and the model reuses it. -/
def sendStep (transmittal_number : String) (recipient_org_id created_by now tid : Nat)
    (s : DB) (rid : Nat) : Except DBErr DB :=
  if s.transmittal_documents.any (fun l => l.transmittal_id == tid && l.revision_id == rid) then
    .error .uniqueViolation
  else
    let link : TransmittalDocument := { transmittal_id := tid, revision_id := rid }
    let s1 := { s with
      transmittal_documents := s.transmittal_documents ++ [link] }
    match s1.revisions.find? (fun r => r.id == rid) with
    | none => .error .rowMissing
    | some src =>
      let ev : Event :=
        { id := s1.nextEventId, document_id := src.document_id,
          revision_id := some rid, user_id := created_by,
          event_type := "Sent", timestamp := now,
          notes := some ("Transmittal " ++ transmittal_number ++
            " sent to org " ++ toString recipient_org_id) }
      let s2 := { s1 with
        events := s1.events ++ [ev], nextEventId := s1.nextEventId + 1 }
      match s2.documents.find? (fun d => d.id == src.document_id) with
      | none => .error .rowMissing
      | some d =>
        match s2.documents.find? (fun dd =>
            dd.doc_number == d.doc_number && dd.org_id == recipient_org_id &&
            dd.project_id == d.project_id) with
        | none =>
          let newDocId := s2.nextDocumentId
          let newDoc : Document :=
            { id := newDocId, doc_number := d.doc_number, title := d.title,
              doc_type := d.doc_type, status := d.status,
              org_id := recipient_org_id, project_id := d.project_id,
              current_revision_id := none, created_at := now }
          let s3 := { s2 with
            documents := s2.documents ++ [newDoc],
            nextDocumentId := newDocId + 1 }
          let newRevId := s3.nextRevisionId
          let rep : Revision :=
            { id := newRevId, document_id := newDocId,
              revision := src.revision, file_path := src.file_path,
              uploaded_by := created_by, uploaded_at := now }
          let s4 := { s3 with
            revisions := s3.revisions ++ [rep], nextRevisionId := newRevId + 1 }
          .ok { s4 with documents := repointDoc s4.documents newDocId newRevId }
        | some existingDoc =>
          let newRevId := s2.nextRevisionId
          let rep : Revision :=
            { id := newRevId, document_id := existingDoc.id,
              revision := src.revision, file_path := src.file_path,
              uploaded_by := created_by, uploaded_at := now }
          let s3 := { s2 with
            revisions := s2.revisions ++ [rep], nextRevisionId := newRevId + 1 }
          .ok { s3 with documents := repointDoc s3.documents existingDoc.id newRevId }

/-- The whole `for rev_id in document_revision_ids` loop: the first error
aborts the call (the exception propagates). -/
def sendLoop (transmittal_number : String) (recipient_org_id created_by now tid : Nat) :
    List Nat → DB → Except DBErr DB
  | [], s => .ok s
  | rid :: rest, s =>
    match sendStep transmittal_number recipient_org_id created_by now tid s rid with
    | .error e => .error e
    | .ok s' => sendLoop transmittal_number recipient_org_id created_by now tid rest s'

/-- `create_transmittal` (src/database.py:480-578).  Inserts the
transmittal row, runs the per-revision loop, and only then commits; on any
error the exception propagates before `conn.commit()`, the connection is
dropped and the transaction rolls back, so the store is returned
unchanged. -/
def create_transmittal (transmittal_number description : String)
    (sender_org_id recipient_org_id : Nat) (document_revision_ids : List Nat)
    (created_by : Nat) (now : Nat) (db : DB) : DB × Except DBErr Nat :=
  let tid := db.nextTransmittalId
  let t : Transmittal :=
    { id := tid, transmittal_number := transmittal_number,
      description := description, sender_org_id := sender_org_id,
      recipient_org_id := recipient_org_id, created_by := created_by,
      created_at := now }
  let s0 := { db with
    transmittals := db.transmittals ++ [t], nextTransmittalId := tid + 1 }
  match sendLoop transmittal_number recipient_org_id created_by now tid
      document_revision_ids s0 with
  | .ok s' => (s', .ok tid)
  | .error e => (db, .error e)

deriving instance DecidableEq for Except

/-! ### Basic facts about the row updater -/

/-- All columns of a document row except the mutable current-revision
pointer.  The `UPDATE … SET current_revision_id` statements change no other
column. -/
def SameDocIdentity (d d' : Document) : Prop :=
  d'.id = d.id ∧ d'.doc_number = d.doc_number ∧ d'.title = d.title ∧
  d'.doc_type = d.doc_type ∧ d'.status = d.status ∧ d'.org_id = d.org_id ∧
  d'.project_id = d.project_id ∧ d'.created_at = d.created_at

theorem sameDocIdentity_refl (d : Document) : SameDocIdentity d d := by
  unfold SameDocIdentity; exact ⟨rfl, rfl, rfl, rfl, rfl, rfl, rfl, rfl⟩

theorem sameDocIdentity_trans {a b c : Document}
    (h1 : SameDocIdentity a b) (h2 : SameDocIdentity b c) : SameDocIdentity a c := by
  unfold SameDocIdentity at *
  obtain ⟨e1, e2, e3, e4, e5, e6, e7, e8⟩ := h1
  obtain ⟨f1, f2, f3, f4, f5, f6, f7, f8⟩ := h2
  exact ⟨f1.trans e1, f2.trans e2, f3.trans e3, f4.trans e4, f5.trans e5,
    f6.trans e6, f7.trans e7, f8.trans e8⟩

theorem pointTo_id (t n : Nat) (d : Document) : (pointTo t n d).id = d.id := by
  unfold pointTo; split <;> rfl

theorem sameDocIdentity_pointTo (t n : Nat) (d : Document) :
    SameDocIdentity d (pointTo t n d) := by
  unfold pointTo SameDocIdentity; split <;> exact ⟨rfl, rfl, rfl, rfl, rfl, rfl, rfl, rfl⟩

theorem find?_repointDoc (docs : List Document) (t n : Nat) (p : Document → Bool)
    (hp : ∀ d, p (pointTo t n d) = p d) :
    (repointDoc docs t n).find? p = (docs.find? p).map (pointTo t n) := by
  unfold repointDoc
  rw [List.find?_map]
  have : p ∘ pointTo t n = p := funext hp
  rw [this]

theorem find?_id_repointDoc (docs : List Document) (t n x : Nat) :
    (repointDoc docs t n).find? (fun d => d.id == x) =
      (docs.find? (fun d => d.id == x)).map (pointTo t n) := by
  refine find?_repointDoc docs t n _ (fun d => ?_)
  simp [pointTo_id]

/-! ### Equation lemmas: the explicit post-state of each operation -/

theorem create_document_ok (dn ti dt st : String) (oid pid : Nat)
    (rl fp : String) (ub now : Nat) (db : DB)
    (hc : (db.documents.any fun d =>
      d.doc_number == dn && d.org_id == oid && d.project_id == pid) = false) :
    create_document dn ti dt st oid pid rl fp ub now db =
      ({ db with
          documents := repointDoc (db.documents ++
              [{ id := db.nextDocumentId, doc_number := dn, title := ti,
                 doc_type := dt, status := st, org_id := oid,
                 project_id := pid, current_revision_id := none,
                 created_at := now }])
            db.nextDocumentId db.nextRevisionId,
          revisions := db.revisions ++
            [{ id := db.nextRevisionId, document_id := db.nextDocumentId,
               revision := rl, file_path := fp, uploaded_by := ub,
               uploaded_at := now }],
          events := db.events ++
            [{ id := db.nextEventId, document_id := db.nextDocumentId,
               revision_id := some db.nextRevisionId, user_id := ub,
               event_type := "Uploaded", timestamp := now, notes := none }],
          nextDocumentId := db.nextDocumentId + 1,
          nextRevisionId := db.nextRevisionId + 1,
          nextEventId := db.nextEventId + 1 },
        .ok db.nextDocumentId) := by
  simp [create_document, hc]

theorem create_document_error (dn ti dt st : String) (oid pid : Nat)
    (rl fp : String) (ub now : Nat) (db : DB)
    (hc : (db.documents.any fun d =>
      d.doc_number == dn && d.org_id == oid && d.project_id == pid) = true) :
    create_document dn ti dt st oid pid rl fp ub now db = (db, .error .uniqueViolation) := by
  simp [create_document, hc]

theorem add_document_revision_eq (did : Nat) (rl fp : String) (ub now : Nat) (db : DB) :
    add_document_revision did rl fp ub now db =
      ({ db with
          documents := repointDoc db.documents did db.nextRevisionId,
          revisions := db.revisions ++
            [{ id := db.nextRevisionId, document_id := did, revision := rl,
               file_path := fp, uploaded_by := ub, uploaded_at := now }],
          events := db.events ++
            [{ id := db.nextEventId, document_id := did,
               revision_id := some db.nextRevisionId, user_id := ub,
               event_type := "RevisionUploaded", timestamp := now,
               notes := none }],
          nextRevisionId := db.nextRevisionId + 1,
          nextEventId := db.nextEventId + 1 },
        db.nextRevisionId) :=
  rfl

/-! ### Generic find-or-append helpers -/

theorem find?_append_singleton_of_none {α} (l : List α) (a : α) (p : α → Bool)
    (h : ∀ x ∈ l, ¬ p x) (ha : p a) : (l ++ [a]).find? p = some a := by
  rw [List.find?_append, List.find?_eq_none.mpr h, Option.none_or,
    List.find?_cons_of_pos _ ha]

/-! ### C3: createDocument post-state -/

/-- **C3.** For every document created via `createDocument`, immediately
after the call returns, `getCurrentRevisionLabel` on the new document id
equals the `initial_revision_label` supplied to the call, and exactly one
event of type "Uploaded" exists for that document, referencing the initial
revision.  The freshness hypotheses say that the AUTOINCREMENT ids about to
be allocated do not already occur in the store, which holds in every state
the application can reach. -/
theorem claim3_createDocument_postconditions
    (dn ti dt st : String) (oid pid : Nat) (rl fp : String) (ub now : Nat)
    (db : DB) (did : Nat)
    (hok : (create_document dn ti dt st oid pid rl fp ub now db).2 = .ok did)
    (hdoc : ∀ d ∈ db.documents, d.id ≠ db.nextDocumentId)
    (hrev : ∀ r ∈ db.revisions, r.id ≠ db.nextRevisionId)
    (hupl : ∀ e ∈ db.events, e.event_type = "Uploaded" → e.document_id ≠ db.nextDocumentId)
    (hnz : db.nextRevisionId ≠ 0) :
    getCurrentRevisionLabel (create_document dn ti dt st oid pid rl fp ub now db).1 did
      = some rl ∧
    ∃ ev irev,
      ((create_document dn ti dt st oid pid rl fp ub now db).1.events.filter
          (fun e => e.document_id == did && e.event_type == "Uploaded")) = [ev] ∧
      ev.revision_id = some irev.id ∧
      get_revision (create_document dn ti dt st oid pid rl fp ub now db).1 irev.id
        = some irev ∧
      irev.document_id = did ∧ irev.revision = rl := by
  by_cases hc : (db.documents.any fun d =>
      d.doc_number == dn && d.org_id == oid && d.project_id == pid) = true
  · rw [create_document_error dn ti dt st oid pid rl fp ub now db hc] at hok
    exact absurd hok (by simp)
  · have hc' : (db.documents.any fun d =>
        d.doc_number == dn && d.org_id == oid && d.project_id == pid) = false := by
      rwa [Bool.not_eq_true] at hc
    rw [create_document_ok dn ti dt st oid pid rl fp ub now db hc'] at hok ⊢
    simp only [Except.ok.injEq] at hok
    subst hok
    constructor
    · -- current revision label
      unfold getCurrentRevisionLabel get_document get_revision
      rw [find?_id_repointDoc]
      rw [find?_append_singleton_of_none _ _ _
        (fun d hd => by simp [hdoc d hd]) (by simp)]
      simp only [Option.map_some', pointTo, beq_self_eq_true, if_true,
        Option.some_bind]
      rw [find?_append_singleton_of_none _ _ _
        (fun r hr => by simp [hrev r hr]) (by simp)]
      simp [hnz]
    · -- exactly one "Uploaded" event, referencing the initial revision
      refine ⟨⟨db.nextEventId, db.nextDocumentId, some db.nextRevisionId, ub,
          "Uploaded", now, none⟩,
        ⟨db.nextRevisionId, db.nextDocumentId, rl, fp, ub, now⟩,
        ?_, rfl, ?_, rfl, rfl⟩
      · rw [List.filter_append]
        rw [List.filter_eq_nil_iff.mpr (fun e he => by
          simp only [Bool.and_eq_true, beq_iff_eq, not_and]
          intro h1 h2
          exact hupl e he h2 h1)]
        simp
      · unfold get_revision
        exact find?_append_singleton_of_none _ _ _
          (fun r hr => by simp [hrev r hr]) (by simp)

/-- Witness for C3 at a concrete store. -/
theorem claim3_witness :
    (create_document "DN" "T" "DT" "S" 1 1 "A" "f" 7 10 DB.empty).2 = .ok 1 ∧
    (getCurrentRevisionLabel (create_document "DN" "T" "DT" "S" 1 1 "A" "f" 7 10 DB.empty).1 1
        = some "A" ∧
      ∃ ev irev,
        ((create_document "DN" "T" "DT" "S" 1 1 "A" "f" 7 10 DB.empty).1.events.filter
            (fun e => e.document_id == 1 && e.event_type == "Uploaded")) = [ev] ∧
        ev.revision_id = some irev.id ∧
        get_revision (create_document "DN" "T" "DT" "S" 1 1 "A" "f" 7 10 DB.empty).1 irev.id
          = some irev ∧
        irev.document_id = 1 ∧ irev.revision = "A") :=
  ⟨by decide,
    claim3_createDocument_postconditions "DN" "T" "DT" "S" 1 1 "A" "f" 7 10 DB.empty 1
      (by decide) (by decide) (by decide) (by decide) (by decide)⟩

/-! ### C7: addRevision on a non-existent document id -/

/-- **C7, counterexample.**  The claim says `addRevision` on a non-existent
document id fails with `NotFoundError` and leaves the revision ledger and
event log unchanged.  In the code, foreign keys are not enforced on
`get_conn` connections and `add_document_revision` performs no existence
check, so on an empty store (no document with id 5) the call returns
normally and appends both a revision and an event. -/
theorem claim7_counterexample :
    DB.empty.documents = [] ∧
    ¬ ((add_document_revision 5 "B" "g.pdf" 7 3 DB.empty).1.revisions
          = DB.empty.revisions ∧
       (add_document_revision 5 "B" "g.pdf" 7 3 DB.empty).1.events
          = DB.empty.events) := by
  decide

/-- **C7, amended.**  `addRevision` performs no existence check: called with
a document id that no document row has, it succeeds, appends an orphan
revision and a "RevisionUploaded" event, returns the new revision id, and
modifies no document row. -/
theorem claim7_addRevision_unchecked (did : Nat) (rl fp : String)
    (ub now : Nat) (db : DB)
    (h : ∀ d ∈ db.documents, d.id ≠ did) :
    (add_document_revision did rl fp ub now db).1.documents = db.documents ∧
    (add_document_revision did rl fp ub now db).1.revisions =
      db.revisions ++
        [{ id := db.nextRevisionId, document_id := did, revision := rl,
           file_path := fp, uploaded_by := ub, uploaded_at := now }] ∧
    (add_document_revision did rl fp ub now db).1.events =
      db.events ++
        [{ id := db.nextEventId, document_id := did,
           revision_id := some db.nextRevisionId, user_id := ub,
           event_type := "RevisionUploaded", timestamp := now, notes := none }] ∧
    (add_document_revision did rl fp ub now db).2 = db.nextRevisionId := by
  rw [add_document_revision_eq]
  refine ⟨?_, rfl, rfl, rfl⟩
  unfold repointDoc
  rw [List.map_congr_left (fun d hd => ?_), List.map_id]
  simp [pointTo, h d hd]

/-- Witness for the amended C7. -/
theorem claim7_witness :
    (add_document_revision 5 "B" "g.pdf" 7 3 DB.empty).1.documents = DB.empty.documents ∧
    (add_document_revision 5 "B" "g.pdf" 7 3 DB.empty).1.revisions =
      DB.empty.revisions ++
        [{ id := DB.empty.nextRevisionId, document_id := 5, revision := "B",
           file_path := "g.pdf", uploaded_by := 7, uploaded_at := 3 }] ∧
    (add_document_revision 5 "B" "g.pdf" 7 3 DB.empty).1.events =
      DB.empty.events ++
        [{ id := DB.empty.nextEventId, document_id := 5,
           revision_id := some DB.empty.nextRevisionId, user_id := 7,
           event_type := "RevisionUploaded", timestamp := 3, notes := none }] ∧
    (add_document_revision 5 "B" "g.pdf" 7 3 DB.empty).2 = DB.empty.nextRevisionId :=
  claim7_addRevision_unchecked 5 "B" "g.pdf" 7 3 DB.empty (by decide)

/-! ### Equation lemmas for the transmittal loop body -/

/-- The "Sent" event inserted for one processed revision id. -/
def sentEvent (tn : String) (ro cb now : Nat) (s : DB) (src : Revision) (rid : Nat) : Event :=
  { id := s.nextEventId, document_id := src.document_id, revision_id := some rid,
    user_id := cb, event_type := "Sent", timestamp := now,
    notes := some ("Transmittal " ++ tn ++ " sent to org " ++ toString ro) }

/-- The recipient-side document created when reconciliation finds no match. -/
def replicaDoc (ro now : Nat) (s : DB) (d : Document) : Document :=
  { id := s.nextDocumentId, doc_number := d.doc_number, title := d.title,
    doc_type := d.doc_type, status := d.status, org_id := ro,
    project_id := d.project_id, current_revision_id := none, created_at := now }

theorem sendStep_dup (tn : String) (ro cb now tid : Nat) (s : DB) (rid : Nat)
    (h1 : (s.transmittal_documents.any fun l =>
      l.transmittal_id == tid && l.revision_id == rid) = true) :
    sendStep tn ro cb now tid s rid = .error .uniqueViolation := by
  simp [sendStep, h1]

theorem sendStep_noRev (tn : String) (ro cb now tid : Nat) (s : DB) (rid : Nat)
    (h1 : (s.transmittal_documents.any fun l =>
      l.transmittal_id == tid && l.revision_id == rid) = false)
    (h2 : s.revisions.find? (fun r => r.id == rid) = none) :
    sendStep tn ro cb now tid s rid = .error .rowMissing := by
  simp [sendStep, h1, h2]

theorem sendStep_noDoc (tn : String) (ro cb now tid : Nat) (s : DB) (rid : Nat)
    (src : Revision)
    (h1 : (s.transmittal_documents.any fun l =>
      l.transmittal_id == tid && l.revision_id == rid) = false)
    (h2 : s.revisions.find? (fun r => r.id == rid) = some src)
    (h3 : s.documents.find? (fun d => d.id == src.document_id) = none) :
    sendStep tn ro cb now tid s rid = .error .rowMissing := by
  simp [sendStep, h1, h2, h3]

theorem sendStep_absent (tn : String) (ro cb now tid : Nat) (s : DB) (rid : Nat)
    (src : Revision) (d : Document)
    (h1 : (s.transmittal_documents.any fun l =>
      l.transmittal_id == tid && l.revision_id == rid) = false)
    (h2 : s.revisions.find? (fun r => r.id == rid) = some src)
    (h3 : s.documents.find? (fun dd => dd.id == src.document_id) = some d)
    (h4 : s.documents.find? (fun dd =>
      dd.doc_number == d.doc_number && dd.org_id == ro &&
      dd.project_id == d.project_id) = none) :
    sendStep tn ro cb now tid s rid = .ok
      { s with
        transmittal_documents := s.transmittal_documents ++
          [{ transmittal_id := tid, revision_id := rid }],
        events := s.events ++ [sentEvent tn ro cb now s src rid],
        nextEventId := s.nextEventId + 1,
        documents := repointDoc (s.documents ++ [replicaDoc ro now s d])
          s.nextDocumentId s.nextRevisionId,
        nextDocumentId := s.nextDocumentId + 1,
        revisions := s.revisions ++
          [{ id := s.nextRevisionId, document_id := s.nextDocumentId,
             revision := src.revision, file_path := src.file_path,
             uploaded_by := cb, uploaded_at := now }],
        nextRevisionId := s.nextRevisionId + 1 } := by
  simp [sendStep, h1, h2, h3, h4, sentEvent, replicaDoc]

theorem sendStep_present (tn : String) (ro cb now tid : Nat) (s : DB) (rid : Nat)
    (src : Revision) (d ed : Document)
    (h1 : (s.transmittal_documents.any fun l =>
      l.transmittal_id == tid && l.revision_id == rid) = false)
    (h2 : s.revisions.find? (fun r => r.id == rid) = some src)
    (h3 : s.documents.find? (fun dd => dd.id == src.document_id) = some d)
    (h4 : s.documents.find? (fun dd =>
      dd.doc_number == d.doc_number && dd.org_id == ro &&
      dd.project_id == d.project_id) = some ed) :
    sendStep tn ro cb now tid s rid = .ok
      { s with
        transmittal_documents := s.transmittal_documents ++
          [{ transmittal_id := tid, revision_id := rid }],
        events := s.events ++ [sentEvent tn ro cb now s src rid],
        nextEventId := s.nextEventId + 1,
        revisions := s.revisions ++
          [{ id := s.nextRevisionId, document_id := ed.id,
             revision := src.revision, file_path := src.file_path,
             uploaded_by := cb, uploaded_at := now }],
        nextRevisionId := s.nextRevisionId + 1,
        documents := repointDoc s.documents ed.id s.nextRevisionId } := by
  simp [sendStep, h1, h2, h3, h4, sentEvent]

theorem sendLoop_nil (tn : String) (ro cb now tid : Nat) (s : DB) :
    sendLoop tn ro cb now tid [] s = .ok s := rfl

theorem sendLoop_cons (tn : String) (ro cb now tid : Nat) (s : DB)
    (rid : Nat) (rest : List Nat) :
    sendLoop tn ro cb now tid (rid :: rest) s =
      match sendStep tn ro cb now tid s rid with
      | .error e => .error e
      | .ok s' => sendLoop tn ro cb now tid rest s' := rfl

/-! ### C4: the current-revision pointer invariant -/

/-- Id of the most-recently-appended revision belonging to document `did`
(`none` when the document has no revisions). -/
def latestRevIdFor (revs : List Revision) (did : Nat) : Option Nat :=
  ((revs.filter (fun r => r.document_id == did)).getLast?).map (fun r => r.id)

/-- Every document's `current_revision_id` references the most-recently
appended revision belonging to it, and is NULL exactly when the document
has no revisions. -/
def CurrentRevInvariant (db : DB) : Prop :=
  ∀ d ∈ db.documents, d.current_revision_id = latestRevIdFor db.revisions d.id

instance (db : DB) : Decidable (CurrentRevInvariant db) :=
  inferInstanceAs (Decidable (∀ d ∈ db.documents,
    d.current_revision_id = latestRevIdFor db.revisions d.id))

theorem latestRevIdFor_append_match (revs : List Revision) (rep : Revision)
    (did : Nat) (h : rep.document_id = did) :
    latestRevIdFor (revs ++ [rep]) did = some rep.id := by
  unfold latestRevIdFor
  rw [List.filter_append]
  have : [rep].filter (fun r => r.document_id == did) = [rep] := by simp [h]
  rw [this, List.getLast?_concat]
  rfl

theorem latestRevIdFor_append_other (revs : List Revision) (rep : Revision)
    (did : Nat) (h : rep.document_id ≠ did) :
    latestRevIdFor (revs ++ [rep]) did = latestRevIdFor revs did := by
  unfold latestRevIdFor
  rw [List.filter_append]
  have : [rep].filter (fun r => r.document_id == did) = [] := by simp [h]
  rw [this, List.append_nil]

/-- The shared "append one revision for document `X`, then repoint every
document row whose id is `X`" shape of all four mutation sites. -/
theorem invariant_step (docs : List Document) (revs : List Revision)
    (rep : Revision) (X nrv : Nat)
    (hrep : rep.document_id = X) (hid : rep.id = nrv)
    (hinv : ∀ d ∈ docs, d.id ≠ X → d.current_revision_id = latestRevIdFor revs d.id) :
    ∀ d' ∈ repointDoc docs X nrv,
      d'.current_revision_id = latestRevIdFor (revs ++ [rep]) d'.id := by
  intro d' hd'
  unfold repointDoc at hd'
  rw [List.mem_map] at hd'
  obtain ⟨d, hd, rfl⟩ := hd'
  rw [pointTo_id]
  by_cases hx : d.id = X
  · have hp : pointTo X nrv d = { d with current_revision_id := some nrv } := by
      simp [pointTo, hx]
    rw [hp, hx, latestRevIdFor_append_match revs rep X hrep, hid]
  · have hp : pointTo X nrv d = d := by simp [pointTo, hx]
    rw [hp, latestRevIdFor_append_other revs rep d.id (by rw [hrep]; exact fun c => hx c.symm)]
    exact hinv d hd hx

theorem create_document_invariant (dn ti dt st : String) (oid pid : Nat)
    (rl fp : String) (ub now : Nat) (db : DB)
    (h : CurrentRevInvariant db) :
    CurrentRevInvariant (create_document dn ti dt st oid pid rl fp ub now db).1 := by
  by_cases hc : (db.documents.any fun d =>
      d.doc_number == dn && d.org_id == oid && d.project_id == pid) = true
  · rw [create_document_error dn ti dt st oid pid rl fp ub now db hc]
    exact h
  · have hc' := (Bool.not_eq_true _).mp hc
    rw [create_document_ok dn ti dt st oid pid rl fp ub now db hc']
    intro d' hd'
    refine invariant_step _ db.revisions _ db.nextDocumentId db.nextRevisionId rfl rfl
      (fun d hd hne => ?_) d' hd'
    rcases List.mem_append.mp hd with hold | hnew
    · exact h d hold
    · simp only [List.mem_singleton] at hnew
      subst hnew
      exact absurd rfl hne

theorem add_document_revision_invariant (did : Nat) (rl fp : String)
    (ub now : Nat) (db : DB) (h : CurrentRevInvariant db) :
    CurrentRevInvariant (add_document_revision did rl fp ub now db).1 := by
  rw [add_document_revision_eq]
  intro d' hd'
  exact invariant_step db.documents db.revisions _ did db.nextRevisionId rfl rfl
    (fun d hd _ => h d hd) d' hd'

theorem sendStep_invariant (tn : String) (ro cb now tid : Nat) (s : DB)
    (rid : Nat) (s' : DB) (h : CurrentRevInvariant s)
    (hstep : sendStep tn ro cb now tid s rid = .ok s') :
    CurrentRevInvariant s' := by
  rcases h1 : (s.transmittal_documents.any fun l =>
      l.transmittal_id == tid && l.revision_id == rid) with _ | _
  case true =>
    rw [sendStep_dup tn ro cb now tid s rid h1] at hstep
    exact absurd hstep (by simp)
  rcases h2 : s.revisions.find? (fun r => r.id == rid) with _ | src
  case none =>
    rw [sendStep_noRev tn ro cb now tid s rid h1 h2] at hstep
    exact absurd hstep (by simp)
  rcases h3 : s.documents.find? (fun dd => dd.id == src.document_id) with _ | d
  case none =>
    rw [sendStep_noDoc tn ro cb now tid s rid src h1 h2 h3] at hstep
    exact absurd hstep (by simp)
  rcases h4 : s.documents.find? (fun dd =>
      dd.doc_number == d.doc_number && dd.org_id == ro &&
      dd.project_id == d.project_id) with _ | ed
  case none =>
    rw [sendStep_absent tn ro cb now tid s rid src d h1 h2 h3 h4] at hstep
    simp only [Except.ok.injEq] at hstep
    subst hstep
    intro d' hd'
    refine invariant_step _ s.revisions _ s.nextDocumentId s.nextRevisionId rfl rfl
      (fun x hx hne => ?_) d' hd'
    rcases List.mem_append.mp hx with hold | hnew
    · exact h x hold
    · simp only [List.mem_singleton] at hnew
      subst hnew
      exact absurd rfl hne
  case some =>
    rw [sendStep_present tn ro cb now tid s rid src d ed h1 h2 h3 h4] at hstep
    simp only [Except.ok.injEq] at hstep
    subst hstep
    intro d' hd'
    exact invariant_step s.documents s.revisions _ ed.id s.nextRevisionId rfl rfl
      (fun x hx _ => h x hx) d' hd'

theorem sendLoop_invariant (tn : String) (ro cb now tid : Nat) :
    ∀ (rids : List Nat) (s s' : DB), CurrentRevInvariant s →
      sendLoop tn ro cb now tid rids s = .ok s' → CurrentRevInvariant s'
  | [], s, s', h, hl => by
    rw [sendLoop_nil] at hl
    simp only [Except.ok.injEq] at hl
    exact hl ▸ h
  | rid :: rest, s, s', h, hl => by
    rw [sendLoop_cons] at hl
    rcases hs : sendStep tn ro cb now tid s rid with e | s1
    · rw [hs] at hl
      exact absurd hl (by simp)
    · rw [hs] at hl
      exact sendLoop_invariant tn ro cb now tid rest s1 s'
        (sendStep_invariant tn ro cb now tid s rid s1 h hs) hl

theorem create_transmittal_invariant (tn dsc : String) (so ro : Nat)
    (rids : List Nat) (cb now : Nat) (db : DB) (h : CurrentRevInvariant db) :
    CurrentRevInvariant (create_transmittal tn dsc so ro rids cb now db).1 := by
  unfold create_transmittal
  rcases hl : sendLoop tn ro cb now db.nextTransmittalId rids
      { db with
        transmittals := db.transmittals ++
          [{ id := db.nextTransmittalId, transmittal_number := tn,
             description := dsc, sender_org_id := so, recipient_org_id := ro,
             created_by := cb, created_at := now }],
        nextTransmittalId := db.nextTransmittalId + 1 } with e | s'
  · simp only [hl]
    exact h
  · simp only [hl]
    exact sendLoop_invariant tn ro cb now db.nextTransmittalId rids
      { db with
        transmittals := db.transmittals ++
          [{ id := db.nextTransmittalId, transmittal_number := tn,
             description := dsc, sender_org_id := so, recipient_org_id := ro,
             created_by := cb, created_at := now }],
        nextTransmittalId := db.nextTransmittalId + 1 }
      s' (fun d hd => h d hd) hl

/-- **C4.** Every mutation — `createDocument`, `addRevision`, and `send`
with its reconciliation steps — preserves the invariant that each
document's `current_revision_id` references the most-recently-appended
revision belonging to that document (and is NULL only for a document with
no revisions). -/
theorem claim4_current_pointer_invariant
    (dn ti dt st : String) (oid pid : Nat) (rl fp : String) (ub now1 : Nat)
    (did : Nat) (rl2 fp2 : String) (ub2 now2 : Nat)
    (tn dsc : String) (so ro : Nat) (rids : List Nat) (cb now3 : Nat)
    (db : DB) (h : CurrentRevInvariant db) :
    CurrentRevInvariant (create_document dn ti dt st oid pid rl fp ub now1 db).1 ∧
    CurrentRevInvariant (add_document_revision did rl2 fp2 ub2 now2 db).1 ∧
    CurrentRevInvariant (create_transmittal tn dsc so ro rids cb now3 db).1 :=
  ⟨create_document_invariant dn ti dt st oid pid rl fp ub now1 db h,
   add_document_revision_invariant did rl2 fp2 ub2 now2 db h,
   create_transmittal_invariant tn dsc so ro rids cb now3 db h⟩

/-- Witness for C4 on a concrete store holding one document with one
revision. -/
theorem claim4_witness :
    CurrentRevInvariant (create_document "D2" "T2" "DT" "S" 1 1 "A" "f" 7 20
      (create_document "DN" "T" "DT" "S" 1 1 "A" "f" 7 10 DB.empty).1).1 ∧
    CurrentRevInvariant (add_document_revision 1 "B" "g" 7 20
      (create_document "DN" "T" "DT" "S" 1 1 "A" "f" 7 10 DB.empty).1).1 ∧
    CurrentRevInvariant (create_transmittal "TR" "" 1 2 [1] 7 20
      (create_document "DN" "T" "DT" "S" 1 1 "A" "f" 7 10 DB.empty).1).1 :=
  claim4_current_pointer_invariant "D2" "T2" "DT" "S" 1 1 "A" "f" 7 20
    1 "B" "g" 7 20 "TR" "" 1 2 [1] 7 20
    (create_document "DN" "T" "DT" "S" 1 1 "A" "f" 7 10 DB.empty).1
    (by decide)

/-! ### C9: a duplicate revision id aborts the whole send -/

theorem sendStep_ok_not_dup (tn : String) (ro cb now tid : Nat) (s : DB)
    (rid : Nat) (s' : DB)
    (hstep : sendStep tn ro cb now tid s rid = .ok s') :
    (s.transmittal_documents.any fun l =>
      l.transmittal_id == tid && l.revision_id == rid) = false := by
  rcases h1 : (s.transmittal_documents.any fun l =>
      l.transmittal_id == tid && l.revision_id == rid) with _ | _
  · rfl
  · rw [sendStep_dup tn ro cb now tid s rid h1] at hstep
    exact absurd hstep (by simp)

theorem sendStep_links (tn : String) (ro cb now tid : Nat) (s : DB)
    (rid : Nat) (s' : DB)
    (hstep : sendStep tn ro cb now tid s rid = .ok s') :
    s'.transmittal_documents = s.transmittal_documents ++
      [{ transmittal_id := tid, revision_id := rid }] := by
  rcases h1 : (s.transmittal_documents.any fun l =>
      l.transmittal_id == tid && l.revision_id == rid) with _ | _
  case true =>
    rw [sendStep_dup tn ro cb now tid s rid h1] at hstep
    exact absurd hstep (by simp)
  rcases h2 : s.revisions.find? (fun r => r.id == rid) with _ | src
  case none =>
    rw [sendStep_noRev tn ro cb now tid s rid h1 h2] at hstep
    exact absurd hstep (by simp)
  rcases h3 : s.documents.find? (fun dd => dd.id == src.document_id) with _ | d
  case none =>
    rw [sendStep_noDoc tn ro cb now tid s rid src h1 h2 h3] at hstep
    exact absurd hstep (by simp)
  rcases h4 : s.documents.find? (fun dd =>
      dd.doc_number == d.doc_number && dd.org_id == ro &&
      dd.project_id == d.project_id) with _ | ed
  case none =>
    rw [sendStep_absent tn ro cb now tid s rid src d h1 h2 h3 h4] at hstep
    simp only [Except.ok.injEq] at hstep
    subst hstep
    rfl
  case some =>
    rw [sendStep_present tn ro cb now tid s rid src d ed h1 h2 h3 h4] at hstep
    simp only [Except.ok.injEq] at hstep
    subst hstep
    rfl

theorem any_link_false_iff (links : List TransmittalDocument) (tid rid : Nat) :
    (links.any fun l => l.transmittal_id == tid && l.revision_id == rid) = false ↔
    ({ transmittal_id := tid, revision_id := rid } : TransmittalDocument) ∉ links := by
  rw [← Bool.not_eq_true, List.any_eq_true]
  constructor
  · intro h hm
    exact h ⟨_, hm, by simp⟩
  · rintro h ⟨l, hl, hp⟩
    simp only [Bool.and_eq_true, beq_iff_eq] at hp
    obtain ⟨e1, e2⟩ := hp
    have : l = { transmittal_id := tid, revision_id := rid } := by
      cases l
      simp_all
    exact h (this ▸ hl)

/-- A successful run of the loop requires the processed revision-id list to
be duplicate-free (the composite primary key on `transmittal_documents`
rejects the second insertion of a pair). -/
theorem sendLoop_ok_nodup (tn : String) (ro cb now tid : Nat) :
    ∀ (l : List Nat) (s s' : DB),
      sendLoop tn ro cb now tid l s = .ok s' →
      l.Nodup ∧ ∀ rid ∈ l,
        ({ transmittal_id := tid, revision_id := rid } : TransmittalDocument)
          ∉ s.transmittal_documents
  | [], s, s', _ => ⟨List.nodup_nil, by simp⟩
  | rid :: rest, s, s', hl => by
    rw [sendLoop_cons] at hl
    rcases hs : sendStep tn ro cb now tid s rid with e | s1
    · rw [hs] at hl
      exact absurd hl (by simp)
    · rw [hs] at hl
      have hnotdup := (any_link_false_iff s.transmittal_documents tid rid).mp
        (sendStep_ok_not_dup tn ro cb now tid s rid s1 hs)
      have hlinks := sendStep_links tn ro cb now tid s rid s1 hs
      obtain ⟨hnd, hnotin⟩ := sendLoop_ok_nodup tn ro cb now tid rest s1 s' hl
      have hridrest : rid ∉ rest := by
        intro hmem
        exact hnotin rid hmem (by rw [hlinks]; exact List.mem_append_right _ (by simp))
      refine ⟨List.nodup_cons.mpr ⟨hridrest, hnd⟩, ?_⟩
      intro r hr
      rcases List.mem_cons.mp hr with rfl | hr'
      · exact hnotdup
      · intro hmem
        exact hnotin r hr' (by rw [hlinks]; exact List.mem_append_left _ hmem)

/-- **C9.** If the revision-id list passed to a single `send` call contains
the same revision id twice, the composite primary key on
`(transmittal_id, revision_id)` makes the second link insertion fail, so
the whole call fails and — because the transaction commits only at the very
end — no transmittal, link, event or replica from the call is persisted:
the store comes back unchanged. -/
theorem claim9_duplicate_revision_id_aborts (tn dsc : String) (so ro : Nat)
    (rids : List Nat) (cb now : Nat) (db : DB) (hdup : ¬ rids.Nodup) :
    ∃ e, create_transmittal tn dsc so ro rids cb now db = (db, .error e) := by
  unfold create_transmittal
  rcases hl : sendLoop tn ro cb now db.nextTransmittalId rids
      { db with
        transmittals := db.transmittals ++
          [{ id := db.nextTransmittalId, transmittal_number := tn,
             description := dsc, sender_org_id := so, recipient_org_id := ro,
             created_by := cb, created_at := now }],
        nextTransmittalId := db.nextTransmittalId + 1 } with e | s'
  · exact ⟨e, by simp [hl]⟩
  · exact absurd (sendLoop_ok_nodup tn ro cb now db.nextTransmittalId rids _ s' hl).1 hdup

/-- Witness for C9: sending `[1, 1]` from a store holding revision 1. -/
theorem claim9_witness :
    ∃ e, create_transmittal "TR" "" 1 2 [1, 1] 7 20
      (create_document "DN" "T" "DT" "S" 1 1 "A" "f" 7 10 DB.empty).1 =
      ((create_document "DN" "T" "DT" "S" 1 1 "A" "f" 7 10 DB.empty).1, .error e) :=
  claim9_duplicate_revision_id_aborts "TR" "" 1 2 [1, 1] 7 20
    (create_document "DN" "T" "DT" "S" 1 1 "A" "f" 7 10 DB.empty).1
    (by decide)

/-! ### C6: the error contract of send -/

theorem sendStep_revisions (tn : String) (ro cb now tid : Nat) (s : DB)
    (rid : Nat) (s' : DB)
    (hstep : sendStep tn ro cb now tid s rid = .ok s') :
    ∃ rep, s'.revisions = s.revisions ++ [rep] ∧ rep.id = s.nextRevisionId ∧
      s'.nextRevisionId = s.nextRevisionId + 1 := by
  rcases h1 : (s.transmittal_documents.any fun l =>
      l.transmittal_id == tid && l.revision_id == rid) with _ | _
  case true =>
    rw [sendStep_dup tn ro cb now tid s rid h1] at hstep
    exact absurd hstep (by simp)
  rcases h2 : s.revisions.find? (fun r => r.id == rid) with _ | src
  case none =>
    rw [sendStep_noRev tn ro cb now tid s rid h1 h2] at hstep
    exact absurd hstep (by simp)
  rcases h3 : s.documents.find? (fun dd => dd.id == src.document_id) with _ | d
  case none =>
    rw [sendStep_noDoc tn ro cb now tid s rid src h1 h2 h3] at hstep
    exact absurd hstep (by simp)
  rcases h4 : s.documents.find? (fun dd =>
      dd.doc_number == d.doc_number && dd.org_id == ro &&
      dd.project_id == d.project_id) with _ | ed
  case none =>
    rw [sendStep_absent tn ro cb now tid s rid src d h1 h2 h3 h4] at hstep
    simp only [Except.ok.injEq] at hstep
    subst hstep
    exact ⟨_, rfl, rfl, rfl⟩
  case some =>
    rw [sendStep_present tn ro cb now tid s rid src d ed h1 h2 h3 h4] at hstep
    simp only [Except.ok.injEq] at hstep
    subst hstep
    exact ⟨_, rfl, rfl, rfl⟩

/-- The loop can never finish when some processed id is below the revision
allocator yet no revision row carries it: that iteration dereferences a
missing row. -/
theorem sendLoop_missing (tn : String) (ro cb now tid rid : Nat) :
    ∀ (l : List Nat) (s : DB), rid ∈ l →
      (∀ r ∈ s.revisions, r.id ≠ rid) → rid < s.nextRevisionId →
      ∀ s', sendLoop tn ro cb now tid l s ≠ .ok s'
  | [], _, hmem, _, _ => absurd hmem (by simp)
  | a :: rest, s, hmem, hno, hlt => by
    intro s' hl
    rw [sendLoop_cons] at hl
    rcases hs : sendStep tn ro cb now tid s a with e | s1
    · rw [hs] at hl
      exact absurd hl (by simp)
    · rw [hs] at hl
      rcases List.mem_cons.mp hmem with rfl | hrest
      · -- the bad id is processed right now: the step cannot have succeeded
        rcases h1 : (s.transmittal_documents.any fun l =>
            l.transmittal_id == tid && l.revision_id == rid) with _ | _
        · rw [sendStep_noRev tn ro cb now tid s rid h1
            (List.find?_eq_none.mpr (fun r hr => by simp [hno r hr]))] at hs
          exact absurd hs (by simp)
        · rw [sendStep_dup tn ro cb now tid s rid h1] at hs
          exact absurd hs (by simp)
      · obtain ⟨rep, he, hid, hnext⟩ := sendStep_revisions tn ro cb now tid s a s1 hs
        refine sendLoop_missing tn ro cb now tid rid rest s1 hrest ?_ ?_ s' hl
        · intro r hr
          rw [he] at hr
          rcases List.mem_append.mp hr with hold | hnew
          · exact hno r hold
          · simp only [List.mem_singleton] at hnew
            subst hnew
            rw [hid]
            exact Nat.ne_of_gt hlt
        · rw [hnext]
          exact Nat.lt_succ_of_lt hlt

/-- **C6, counterexample.**  The claim says `send` fails with
`ValidationError` when the revision-id set is empty or the recipient
organization does not exist, with no transmittal record created.  On an
empty store (so organization 99 does not exist) a send with an empty
revision list succeeds and persists the transmittal record. -/
theorem claim6_counterexample :
    DB.empty.organizations = [] ∧
    (create_transmittal "TR" "" 1 99 [] 7 5 DB.empty).2 = .ok 1 ∧
    (create_transmittal "TR" "" 1 99 [] 7 5 DB.empty).1.transmittals.length = 1 := by
  decide

/-- **C6, amended.**  `create_transmittal` validates nothing up front: with
an empty revision-id list (and regardless of whether `recipient_org_id`
names an existing organization) it succeeds and persists the transmittal
record.  It does fail — with the missing-row `TypeError`, there is no
`NotFoundError` in the code — when some supplied revision id resolves to no
revision row (and, being below the id allocator, cannot be captured by a
replica created earlier in the same call), and then the store is returned
unchanged: no transmittal record is persisted. -/
theorem claim6_send_error_contract (tn dsc : String) (so ro : Nat)
    (rids : List Nat) (cb now : Nat) (db : DB) :
    (create_transmittal tn dsc so ro [] cb now db =
      ({ db with
          transmittals := db.transmittals ++
            [{ id := db.nextTransmittalId, transmittal_number := tn,
               description := dsc, sender_org_id := so,
               recipient_org_id := ro, created_by := cb, created_at := now }],
          nextTransmittalId := db.nextTransmittalId + 1 },
        .ok db.nextTransmittalId)) ∧
    (∀ rid ∈ rids, (∀ r ∈ db.revisions, r.id ≠ rid) → rid < db.nextRevisionId →
      ∃ e, create_transmittal tn dsc so ro rids cb now db = (db, .error e)) := by
  constructor
  · rfl
  · intro rid hmem hno hlt
    unfold create_transmittal
    rcases hl : sendLoop tn ro cb now db.nextTransmittalId rids
        { db with
          transmittals := db.transmittals ++
            [{ id := db.nextTransmittalId, transmittal_number := tn,
               description := dsc, sender_org_id := so, recipient_org_id := ro,
               created_by := cb, created_at := now }],
          nextTransmittalId := db.nextTransmittalId + 1 } with e | s'
    · exact ⟨e, by simp [hl]⟩
    · exact absurd hl (sendLoop_missing tn ro cb now db.nextTransmittalId rid rids
        { db with
          transmittals := db.transmittals ++
            [{ id := db.nextTransmittalId, transmittal_number := tn,
               description := dsc, sender_org_id := so, recipient_org_id := ro,
               created_by := cb, created_at := now }],
          nextTransmittalId := db.nextTransmittalId + 1 }
        hmem (fun r hr => hno r hr) hlt s')

/-- Witness for the amended C6. -/
theorem claim6_witness :
    (create_transmittal "TR" "" 1 99 [] 7 5 DB.empty =
      ({ DB.empty with
          transmittals := DB.empty.transmittals ++
            [{ id := DB.empty.nextTransmittalId, transmittal_number := "TR",
               description := "", sender_org_id := 1, recipient_org_id := 99,
               created_by := 7, created_at := 5 }],
          nextTransmittalId := DB.empty.nextTransmittalId + 1 },
        .ok DB.empty.nextTransmittalId)) ∧
    (∃ e, create_transmittal "TR" "" 1 99 [0] 7 5 DB.empty = (DB.empty, .error e)) :=
  ⟨(claim6_send_error_contract "TR" "" 1 99 [0] 7 5 DB.empty).1,
   (claim6_send_error_contract "TR" "" 1 99 [0] 7 5 DB.empty).2 0
     (by decide) (by decide) (by decide)⟩

/-! ### C1: the multi-revision send is all-or-nothing -/

/-- What the loop preserves from one transaction state to a later one:
`transmittals`, `projects` and `organizations` are untouched; links,
events and revisions are only appended; revision lookups by id keep their
answer; document lookups by id keep every column except the
current-revision pointer. -/
structure DBGrows (s s' : DB) : Prop where
  trans_eq : s'.transmittals = s.transmittals
  projects_eq : s'.projects = s.projects
  orgs_eq : s'.organizations = s.organizations
  rev_mem : ∀ r ∈ s.revisions, r ∈ s'.revisions
  link_mem : ∀ l ∈ s.transmittal_documents, l ∈ s'.transmittal_documents
  ev_mem : ∀ e ∈ s.events, e ∈ s'.events
  getRev : ∀ i r, s.revisions.find? (fun x => x.id == i) = some r →
    s'.revisions.find? (fun x => x.id == i) = some r
  getDoc : ∀ i d, s.documents.find? (fun x => x.id == i) = some d →
    ∃ d', s'.documents.find? (fun x => x.id == i) = some d' ∧ SameDocIdentity d d'
  doc_mem : ∀ d ∈ s.documents, ∃ d' ∈ s'.documents, SameDocIdentity d d'

theorem dbGrows_refl (s : DB) : DBGrows s s where
  trans_eq := rfl
  projects_eq := rfl
  orgs_eq := rfl
  rev_mem := fun _ h => h
  link_mem := fun _ h => h
  ev_mem := fun _ h => h
  getRev := fun _ _ h => h
  getDoc := fun _ d h => ⟨d, h, sameDocIdentity_refl d⟩
  doc_mem := fun d h => ⟨d, h, sameDocIdentity_refl d⟩

theorem DBGrows.comp {a b c : DB} (h1 : DBGrows a b) (h2 : DBGrows b c) :
    DBGrows a c where
  trans_eq := h2.trans_eq.trans h1.trans_eq
  projects_eq := h2.projects_eq.trans h1.projects_eq
  orgs_eq := h2.orgs_eq.trans h1.orgs_eq
  rev_mem := fun r h => h2.rev_mem r (h1.rev_mem r h)
  link_mem := fun l h => h2.link_mem l (h1.link_mem l h)
  ev_mem := fun e h => h2.ev_mem e (h1.ev_mem e h)
  getRev := fun i r h => h2.getRev i r (h1.getRev i r h)
  getDoc := fun i d h => by
    obtain ⟨d1, hf1, hs1⟩ := h1.getDoc i d h
    obtain ⟨d2, hf2, hs2⟩ := h2.getDoc i d1 hf1
    exact ⟨d2, hf2, sameDocIdentity_trans hs1 hs2⟩
  doc_mem := fun d h => by
    obtain ⟨d1, hm1, hs1⟩ := h1.doc_mem d h
    obtain ⟨d2, hm2, hs2⟩ := h2.doc_mem d1 hm1
    exact ⟨d2, hm2, sameDocIdentity_trans hs1 hs2⟩

/-- Everything `create_transmittal` persists for one processed revision id:
the link row, the "Sent" event, and the recipient-side replica document
carrying a revision with the source's label and file reference, attributed
to the transmittal creator. -/
def SentOK (s : DB) (tid rid cb ro : Nat) : Prop :=
  ({ transmittal_id := tid, revision_id := rid } : TransmittalDocument)
      ∈ s.transmittal_documents ∧
  (∃ ev ∈ s.events, ev.event_type = "Sent" ∧ ev.revision_id = some rid ∧
    ev.user_id = cb) ∧
  ∃ src, s.revisions.find? (fun r => r.id == rid) = some src ∧
    ∃ d, s.documents.find? (fun x => x.id == src.document_id) = some d ∧
      ∃ dd ∈ s.documents, dd.org_id = ro ∧ dd.doc_number = d.doc_number ∧
        dd.project_id = d.project_id ∧
        ∃ rep ∈ s.revisions, rep.document_id = dd.id ∧
          rep.revision = src.revision ∧ rep.file_path = src.file_path ∧
          rep.uploaded_by = cb

theorem SentOK_mono {s s' : DB} {tid rid cb ro : Nat}
    (hg : DBGrows s s') (h : SentOK s tid rid cb ro) : SentOK s' tid rid cb ro := by
  obtain ⟨hlink, ⟨ev, hev, he1, he2, he3⟩, src, hsrc, d, hd, dd, hdd, ho, hn, hq,
    rep, hrep, hr1, hr2, hr3, hr4⟩ := h
  refine ⟨hg.link_mem _ hlink, ⟨ev, hg.ev_mem ev hev, he1, he2, he3⟩,
    src, hg.getRev rid src hsrc, ?_⟩
  obtain ⟨d', hd', hsd⟩ := hg.getDoc src.document_id d hd
  obtain ⟨dd', hdd', hsdd⟩ := hg.doc_mem dd hdd
  refine ⟨d', hd', dd', hdd', ?_, ?_, ?_, rep, hg.rev_mem rep hrep, ?_, hr2, hr3, hr4⟩
  · exact hsdd.2.2.2.2.2.1.trans ho
  · exact hsdd.2.1.trans (hn.trans hsd.2.1.symm)
  · exact hsdd.2.2.2.2.2.2.1.trans (hq.trans hsd.2.2.2.2.2.2.1.symm)
  · exact hr1.trans hsdd.1.symm

theorem sendStep_grows (tn : String) (ro cb now tid : Nat) (s : DB)
    (rid : Nat) (s' : DB)
    (hstep : sendStep tn ro cb now tid s rid = .ok s') : DBGrows s s' := by
  rcases h1 : (s.transmittal_documents.any fun l =>
      l.transmittal_id == tid && l.revision_id == rid) with _ | _
  case true =>
    rw [sendStep_dup tn ro cb now tid s rid h1] at hstep
    exact absurd hstep (by simp)
  rcases h2 : s.revisions.find? (fun r => r.id == rid) with _ | src
  case none =>
    rw [sendStep_noRev tn ro cb now tid s rid h1 h2] at hstep
    exact absurd hstep (by simp)
  rcases h3 : s.documents.find? (fun dd => dd.id == src.document_id) with _ | d
  case none =>
    rw [sendStep_noDoc tn ro cb now tid s rid src h1 h2 h3] at hstep
    exact absurd hstep (by simp)
  rcases h4 : s.documents.find? (fun dd =>
      dd.doc_number == d.doc_number && dd.org_id == ro &&
      dd.project_id == d.project_id) with _ | ed
  case none =>
    rw [sendStep_absent tn ro cb now tid s rid src d h1 h2 h3 h4] at hstep
    simp only [Except.ok.injEq] at hstep
    subst hstep
    refine ⟨rfl, rfl, rfl, fun r h => List.mem_append_left _ h,
      fun l h => List.mem_append_left _ h, fun e h => List.mem_append_left _ h,
      fun i r h => ?_, fun i dx h => ?_, fun dx h => ?_⟩
    · simp only [List.find?_append, h, Option.or_some]
    · refine ⟨pointTo s.nextDocumentId s.nextRevisionId dx, ?_,
        sameDocIdentity_pointTo _ _ _⟩
      simp only [find?_id_repointDoc, List.find?_append, h, Option.or_some,
        Option.map_some']
    · exact ⟨pointTo s.nextDocumentId s.nextRevisionId dx,
        List.mem_map.mpr ⟨dx, List.mem_append_left _ h, rfl⟩,
        sameDocIdentity_pointTo _ _ _⟩
  case some =>
    rw [sendStep_present tn ro cb now tid s rid src d ed h1 h2 h3 h4] at hstep
    simp only [Except.ok.injEq] at hstep
    subst hstep
    refine ⟨rfl, rfl, rfl, fun r h => List.mem_append_left _ h,
      fun l h => List.mem_append_left _ h, fun e h => List.mem_append_left _ h,
      fun i r h => ?_, fun i dx h => ?_, fun dx h => ?_⟩
    · simp only [List.find?_append, h, Option.or_some]
    · refine ⟨pointTo ed.id s.nextRevisionId dx, ?_, sameDocIdentity_pointTo _ _ _⟩
      simp only [find?_id_repointDoc, h, Option.map_some']
    · exact ⟨pointTo ed.id s.nextRevisionId dx,
        List.mem_map.mpr ⟨dx, h, rfl⟩, sameDocIdentity_pointTo _ _ _⟩

theorem sendStep_sentOK (tn : String) (ro cb now tid : Nat) (s : DB)
    (rid : Nat) (s' : DB)
    (hstep : sendStep tn ro cb now tid s rid = .ok s') :
    SentOK s' tid rid cb ro := by
  rcases h1 : (s.transmittal_documents.any fun l =>
      l.transmittal_id == tid && l.revision_id == rid) with _ | _
  case true =>
    rw [sendStep_dup tn ro cb now tid s rid h1] at hstep
    exact absurd hstep (by simp)
  rcases h2 : s.revisions.find? (fun r => r.id == rid) with _ | src
  case none =>
    rw [sendStep_noRev tn ro cb now tid s rid h1 h2] at hstep
    exact absurd hstep (by simp)
  rcases h3 : s.documents.find? (fun dd => dd.id == src.document_id) with _ | d
  case none =>
    rw [sendStep_noDoc tn ro cb now tid s rid src h1 h2 h3] at hstep
    exact absurd hstep (by simp)
  rcases h4 : s.documents.find? (fun dd =>
      dd.doc_number == d.doc_number && dd.org_id == ro &&
      dd.project_id == d.project_id) with _ | ed
  case none =>
    rw [sendStep_absent tn ro cb now tid s rid src d h1 h2 h3 h4] at hstep
    simp only [Except.ok.injEq] at hstep
    subst hstep
    have hpt : pointTo s.nextDocumentId s.nextRevisionId (replicaDoc ro now s d) =
        { replicaDoc ro now s d with current_revision_id := some s.nextRevisionId } := by
      simp [pointTo, replicaDoc]
    refine ⟨List.mem_append_right _ (by simp),
      ⟨sentEvent tn ro cb now s src rid, List.mem_append_right _ (by simp),
        rfl, rfl, rfl⟩,
      src, by simp only [List.find?_append, h2, Option.or_some], ?_⟩
    refine ⟨pointTo s.nextDocumentId s.nextRevisionId d, ?_, ?_⟩
    · simp only [find?_id_repointDoc, List.find?_append, h3, Option.or_some,
        Option.map_some']
    · refine ⟨pointTo s.nextDocumentId s.nextRevisionId (replicaDoc ro now s d),
        List.mem_map.mpr ⟨replicaDoc ro now s d,
          List.mem_append_right _ (by simp), rfl⟩, ?_, ?_, ?_, ?_⟩
      · rw [hpt]
        rfl
      · rw [hpt]
        exact ((sameDocIdentity_pointTo s.nextDocumentId s.nextRevisionId d).2.1).symm
      · rw [hpt]
        exact ((sameDocIdentity_pointTo s.nextDocumentId s.nextRevisionId d).2.2.2.2.2.2.1).symm
      · refine ⟨⟨s.nextRevisionId, s.nextDocumentId, src.revision, src.file_path, cb, now⟩,
          List.mem_append_right _ (by simp), ?_, rfl, rfl, rfl⟩
        rw [hpt]
        rfl
  case some =>
    rw [sendStep_present tn ro cb now tid s rid src d ed h1 h2 h3 h4] at hstep
    simp only [Except.ok.injEq] at hstep
    subst hstep
    have hedp := List.find?_some h4
    simp only [Bool.and_eq_true, beq_iff_eq] at hedp
    obtain ⟨⟨hed1, hed2⟩, hed3⟩ := hedp
    have sded := sameDocIdentity_pointTo ed.id s.nextRevisionId ed
    have sdd := sameDocIdentity_pointTo ed.id s.nextRevisionId d
    refine ⟨List.mem_append_right _ (by simp),
      ⟨sentEvent tn ro cb now s src rid, List.mem_append_right _ (by simp),
        rfl, rfl, rfl⟩,
      src, by simp only [List.find?_append, h2, Option.or_some], ?_⟩
    refine ⟨pointTo ed.id s.nextRevisionId d, ?_, ?_⟩
    · simp only [find?_id_repointDoc, h3, Option.map_some']
    · refine ⟨pointTo ed.id s.nextRevisionId ed,
        List.mem_map.mpr ⟨ed, List.mem_of_find?_eq_some h4, rfl⟩,
        ?_, ?_, ?_, ?_⟩
      · exact sded.2.2.2.2.2.1.trans hed2
      · exact (sded.2.1.trans hed1).trans sdd.2.1.symm
      · exact (sded.2.2.2.2.2.2.1.trans hed3).trans sdd.2.2.2.2.2.2.1.symm
      · refine ⟨⟨s.nextRevisionId, ed.id, src.revision, src.file_path, cb, now⟩,
          List.mem_append_right _ (by simp), ?_, rfl, rfl, rfl⟩
        exact sded.1.symm

theorem sendLoop_all (tn : String) (ro cb now tid : Nat) :
    ∀ (l : List Nat) (s s' : DB),
      sendLoop tn ro cb now tid l s = .ok s' →
      DBGrows s s' ∧ ∀ rid ∈ l, SentOK s' tid rid cb ro
  | [], s, s', hl => by
    rw [sendLoop_nil] at hl
    simp only [Except.ok.injEq] at hl
    subst hl
    exact ⟨dbGrows_refl s, by simp⟩
  | rid :: rest, s, s', hl => by
    rw [sendLoop_cons] at hl
    rcases hs : sendStep tn ro cb now tid s rid with e | s1
    · rw [hs] at hl
      exact absurd hl (by simp)
    · rw [hs] at hl
      obtain ⟨hg2, hall⟩ := sendLoop_all tn ro cb now tid rest s1 s' hl
      refine ⟨(sendStep_grows tn ro cb now tid s rid s1 hs).comp hg2, ?_⟩
      intro r hr
      rcases List.mem_cons.mp hr with rfl | hr'
      · exact SentOK_mono hg2 (sendStep_sentOK tn ro cb now tid s r s1 hs)
      · exact hall r hr'

/-- **C1.**  The multi-revision send is all-or-nothing.  On success the
returned store contains the transmittal record and, for every revision id
in the input list, the `(transmittal_id, revision_id)` link, a "Sent"
event, and a recipient-side replica document carrying a revision with the
source revision's label and file reference.  On any failure the exception
propagates before the single `conn.commit()`, so the store is returned
unchanged. -/
theorem claim1_send_all_or_nothing (tn dsc : String) (so ro : Nat)
    (rids : List Nat) (cb now : Nat) (db : DB) :
    (∀ tid, (create_transmittal tn dsc so ro rids cb now db).2 = .ok tid →
      (∃ t ∈ (create_transmittal tn dsc so ro rids cb now db).1.transmittals,
        t.id = tid ∧ t.transmittal_number = tn ∧ t.description = dsc ∧
        t.sender_org_id = so ∧ t.recipient_org_id = ro ∧
        t.created_by = cb ∧ t.created_at = now) ∧
      ∀ rid ∈ rids,
        SentOK (create_transmittal tn dsc so ro rids cb now db).1 tid rid cb ro) ∧
    (∀ e, (create_transmittal tn dsc so ro rids cb now db).2 = .error e →
      (create_transmittal tn dsc so ro rids cb now db).1 = db) := by
  unfold create_transmittal
  rcases hl : sendLoop tn ro cb now db.nextTransmittalId rids
      { db with
        transmittals := db.transmittals ++
          [{ id := db.nextTransmittalId, transmittal_number := tn,
             description := dsc, sender_org_id := so, recipient_org_id := ro,
             created_by := cb, created_at := now }],
        nextTransmittalId := db.nextTransmittalId + 1 } with e | s'
  · constructor
    · intro tid h
      simp only [hl] at h
      exact absurd h (by simp)
    · intro e' _
      simp only [hl]
  · constructor
    · intro tid h
      simp only [hl] at h ⊢
      simp only [Except.ok.injEq] at h
      subst h
      obtain ⟨hg, hall⟩ := sendLoop_all tn ro cb now db.nextTransmittalId rids
        { db with
          transmittals := db.transmittals ++
            [{ id := db.nextTransmittalId, transmittal_number := tn,
               description := dsc, sender_org_id := so, recipient_org_id := ro,
               created_by := cb, created_at := now }],
          nextTransmittalId := db.nextTransmittalId + 1 } s' hl
      constructor
      · refine ⟨⟨db.nextTransmittalId, tn, dsc, so, ro, cb, now⟩,
          ?_, rfl, rfl, rfl, rfl, rfl, rfl, rfl⟩
        rw [hg.trans_eq]
        exact List.mem_append_right _ (by simp)
      · exact fun rid hr => hall rid hr
    · intro e h
      simp only [hl] at h
      exact absurd h (by simp)

/-- Witness for C1 on a concrete successful send. -/
theorem claim1_witness :
    (∃ t ∈ (create_transmittal "TR" "" 1 2 [1] 7 20
        (create_document "DN" "T" "DT" "S" 1 1 "A" "f" 7 10 DB.empty).1).1.transmittals,
      t.id = 1 ∧ t.transmittal_number = "TR" ∧ t.description = "" ∧
      t.sender_org_id = 1 ∧ t.recipient_org_id = 2 ∧
      t.created_by = 7 ∧ t.created_at = 20) ∧
    ∀ rid ∈ [1], SentOK (create_transmittal "TR" "" 1 2 [1] 7 20
      (create_document "DN" "T" "DT" "S" 1 1 "A" "f" 7 10 DB.empty).1).1 1 rid 7 2 :=
  (claim1_send_all_or_nothing "TR" "" 1 2 [1] 7 20
    (create_document "DN" "T" "DT" "S" 1 1 "A" "f" 7 10 DB.empty).1).1 1 (by decide)

/-! ### C2 and C10: single-revision round trip -/

/-- Explicit post-state of `send` with a single revision id when the
recipient has no matching document (the reconciliation "absent" branch). -/
theorem send_single_absent (tn dsc : String) (so ro : Nat) (rid cb now : Nat)
    (db : DB) (src : Revision) (d : Document)
    (hsrc : db.revisions.find? (fun r => r.id == rid) = some src)
    (hd : db.documents.find? (fun x => x.id == src.document_id) = some d)
    (habsent : db.documents.find? (fun dd =>
      dd.doc_number == d.doc_number && dd.org_id == ro &&
      dd.project_id == d.project_id) = none)
    (hlink : ∀ l ∈ db.transmittal_documents, l.transmittal_id ≠ db.nextTransmittalId) :
    create_transmittal tn dsc so ro [rid] cb now db =
      ({ db with
          transmittals := db.transmittals ++
            [{ id := db.nextTransmittalId, transmittal_number := tn,
               description := dsc, sender_org_id := so, recipient_org_id := ro,
               created_by := cb, created_at := now }],
          nextTransmittalId := db.nextTransmittalId + 1,
          transmittal_documents := db.transmittal_documents ++
            [{ transmittal_id := db.nextTransmittalId, revision_id := rid }],
          events := db.events ++ [sentEvent tn ro cb now db src rid],
          nextEventId := db.nextEventId + 1,
          documents := repointDoc (db.documents ++ [replicaDoc ro now db d])
            db.nextDocumentId db.nextRevisionId,
          nextDocumentId := db.nextDocumentId + 1,
          revisions := db.revisions ++
            [{ id := db.nextRevisionId, document_id := db.nextDocumentId,
               revision := src.revision, file_path := src.file_path,
               uploaded_by := cb, uploaded_at := now }],
          nextRevisionId := db.nextRevisionId + 1 },
        .ok db.nextTransmittalId) := by
  have h1 : (db.transmittal_documents.any fun l =>
      l.transmittal_id == db.nextTransmittalId && l.revision_id == rid) = false := by
    rw [List.any_eq_false]
    intro l hl
    simp [hlink l hl]
  have hstep := sendStep_absent tn ro cb now db.nextTransmittalId
    { db with
      transmittals := db.transmittals ++
        [{ id := db.nextTransmittalId, transmittal_number := tn,
           description := dsc, sender_org_id := so, recipient_org_id := ro,
           created_by := cb, created_at := now }],
      nextTransmittalId := db.nextTransmittalId + 1 }
    rid src d h1 hsrc hd habsent
  have hloop : sendLoop tn ro cb now db.nextTransmittalId [rid]
      { db with
        transmittals := db.transmittals ++
          [{ id := db.nextTransmittalId, transmittal_number := tn,
             description := dsc, sender_org_id := so, recipient_org_id := ro,
             created_by := cb, created_at := now }],
        nextTransmittalId := db.nextTransmittalId + 1 } = .ok
      { db with
        transmittals := db.transmittals ++
          [{ id := db.nextTransmittalId, transmittal_number := tn,
             description := dsc, sender_org_id := so, recipient_org_id := ro,
             created_by := cb, created_at := now }],
        nextTransmittalId := db.nextTransmittalId + 1,
        transmittal_documents := db.transmittal_documents ++
          [{ transmittal_id := db.nextTransmittalId, revision_id := rid }],
        events := db.events ++ [sentEvent tn ro cb now db src rid],
        nextEventId := db.nextEventId + 1,
        documents := repointDoc (db.documents ++ [replicaDoc ro now db d])
          db.nextDocumentId db.nextRevisionId,
        nextDocumentId := db.nextDocumentId + 1,
        revisions := db.revisions ++
          [{ id := db.nextRevisionId, document_id := db.nextDocumentId,
             revision := src.revision, file_path := src.file_path,
             uploaded_by := cb, uploaded_at := now }],
        nextRevisionId := db.nextRevisionId + 1 } := by
    rw [sendLoop_cons, hstep]
    rfl
  unfold create_transmittal
  simp only [hloop]

/-- A reachable store in which the recipient organization (20) already has
a document with the same `(doc_number, project_id)` as the sender's (10)
document, but a different title. -/
def mismatchStore : DB :=
  { organizations := [], projects := [],
    documents := [
      { id := 1, doc_number := "DN", title := "T", doc_type := "DT",
        status := "S", org_id := 10, project_id := 100,
        current_revision_id := some 1, created_at := 0 },
      { id := 2, doc_number := "DN", title := "OTHER", doc_type := "DT",
        status := "S", org_id := 20, project_id := 100,
        current_revision_id := some 2, created_at := 0 }],
    revisions := [
      { id := 1, document_id := 1, revision := "A", file_path := "f.pdf",
        uploaded_by := 7, uploaded_at := 0 },
      { id := 2, document_id := 2, revision := "B", file_path := "g.pdf",
        uploaded_by := 7, uploaded_at := 0 }],
    events := [], transmittals := [], transmittal_documents := [],
    nextDocumentId := 3, nextRevisionId := 3, nextEventId := 1,
    nextTransmittalId := 1 }

/-- **C2, counterexample.**  Sending the single revision 1 (label "A", of
the org-10 document "DN" titled "T") to org 20 succeeds, but afterwards org
20's register contains no document with the source's title: reconciliation
matched org 20's pre-existing "DN" (titled "OTHER") and appended a revision
to it without copying title/doc_type/status.  So the claim's universally
quantified round-trip property fails. -/
theorem claim2_counterexample :
    (get_revision mismatchStore 1).map (fun r => r.document_id) = some 1 ∧
    (get_document mismatchStore 1).map
      (fun d => (d.doc_number, d.title, d.org_id, d.project_id))
      = some ("DN", "T", 10, 100) ∧
    (create_transmittal "TR" "" 10 20 [1] 7 5 mismatchStore).2 = .ok 1 ∧
    ¬ ∃ dd ∈ (create_transmittal "TR" "" 10 20 [1] 7 5 mismatchStore).1.documents,
        dd.org_id = 20 ∧ dd.doc_number = "DN" ∧ dd.title = "T" := by
  decide

/-- **C2, amended.**  The round trip holds when the recipient has no
document with the source's `(doc_number, project_id)` before the call: the
send succeeds and the recipient's register gains a document with the same
doc_number, title, doc_type, status and project_id as the source document,
whose current revision carries the same revision label and file reference
as the sent revision and is attributed to the transmittal creator. -/
theorem claim2_round_trip (tn dsc : String) (so ro : Nat) (rid cb now : Nat)
    (db : DB) (src : Revision) (d : Document)
    (hsrc : db.revisions.find? (fun r => r.id == rid) = some src)
    (hd : db.documents.find? (fun x => x.id == src.document_id) = some d)
    (habsent : db.documents.find? (fun dd =>
      dd.doc_number == d.doc_number && dd.org_id == ro &&
      dd.project_id == d.project_id) = none)
    (hlink : ∀ l ∈ db.transmittal_documents, l.transmittal_id ≠ db.nextTransmittalId)
    (hrevfresh : ∀ r ∈ db.revisions, r.id ≠ db.nextRevisionId) :
    (create_transmittal tn dsc so ro [rid] cb now db).2 = .ok db.nextTransmittalId ∧
    ∃ dd ∈ (create_transmittal tn dsc so ro [rid] cb now db).1.documents,
      dd.org_id = ro ∧ dd.doc_number = d.doc_number ∧ dd.title = d.title ∧
      dd.doc_type = d.doc_type ∧ dd.status = d.status ∧
      dd.project_id = d.project_id ∧
      ∃ nrv rep, dd.current_revision_id = some nrv ∧
        get_revision (create_transmittal tn dsc so ro [rid] cb now db).1 nrv
          = some rep ∧
        rep.document_id = dd.id ∧ rep.revision = src.revision ∧
        rep.file_path = src.file_path ∧ rep.uploaded_by = cb := by
  rw [send_single_absent tn dsc so ro rid cb now db src d hsrc hd habsent hlink]
  refine ⟨rfl,
    pointTo db.nextDocumentId db.nextRevisionId (replicaDoc ro now db d),
    List.mem_map.mpr ⟨replicaDoc ro now db d,
      List.mem_append_right _ (by simp), rfl⟩,
    ?_, ?_, ?_, ?_, ?_, ?_, db.nextRevisionId,
    ⟨db.nextRevisionId, db.nextDocumentId, src.revision, src.file_path, cb, now⟩,
    ?_, ?_, ?_, rfl, rfl, rfl⟩ <;>
  first
  | (unfold get_revision
     exact find?_append_singleton_of_none _ _ _
       (fun r hr => by simp [hrevfresh r hr]) (by simp))
  | (simp [pointTo, replicaDoc])

/-- Witness for the amended C2 on a concrete store. -/
theorem claim2_witness :
    (create_transmittal "TR" "" 1 2 [1] 7 20
      (create_document "DN" "T" "DT" "S" 1 1 "A" "f" 7 10 DB.empty).1).2 = .ok 1 ∧
    ∃ dd ∈ (create_transmittal "TR" "" 1 2 [1] 7 20
        (create_document "DN" "T" "DT" "S" 1 1 "A" "f" 7 10 DB.empty).1).1.documents,
      dd.org_id = 2 ∧ dd.doc_number = "DN" ∧ dd.title = "T" ∧
      dd.doc_type = "DT" ∧ dd.status = "S" ∧ dd.project_id = 1 ∧
      ∃ nrv rep, dd.current_revision_id = some nrv ∧
        get_revision (create_transmittal "TR" "" 1 2 [1] 7 20
          (create_document "DN" "T" "DT" "S" 1 1 "A" "f" 7 10 DB.empty).1).1 nrv
          = some rep ∧
        rep.document_id = dd.id ∧ rep.revision = "A" ∧
        rep.file_path = "f" ∧ rep.uploaded_by = 7 :=
  claim2_round_trip "TR" "" 1 2 1 7 20
    (create_document "DN" "T" "DT" "S" 1 1 "A" "f" 7 10 DB.empty).1
    ⟨1, 1, "A", "f", 7, 10⟩ ⟨1, "DN", "T", "DT", "S", 1, 1, some 1, 10⟩
    (by decide) (by decide) (by decide) (by decide) (by decide)

/-! ### C10: the replica references the sender-side project -/

/-- **C10.**  When `send` creates a new document in the recipient's
register, the new document's `project_id` is copied verbatim from the
source document; no project row is matched, created or modified, so the
replica references the sender-side project row — owned by the sender
organization, not the recipient. -/
theorem claim10_replica_project_id (tn dsc : String) (so ro : Nat)
    (rid cb now : Nat) (db : DB) (src : Revision) (d : Document) (p : Project)
    (hsrc : db.revisions.find? (fun r => r.id == rid) = some src)
    (hd : db.documents.find? (fun x => x.id == src.document_id) = some d)
    (habsent : db.documents.find? (fun dd =>
      dd.doc_number == d.doc_number && dd.org_id == ro &&
      dd.project_id == d.project_id) = none)
    (hlink : ∀ l ∈ db.transmittal_documents, l.transmittal_id ≠ db.nextTransmittalId)
    (hp : p ∈ db.projects) (hpid : p.id = d.project_id) (hporg : p.org_id = so) :
    (create_transmittal tn dsc so ro [rid] cb now db).1.projects = db.projects ∧
    ∃ dd ∈ (create_transmittal tn dsc so ro [rid] cb now db).1.documents,
      dd.org_id = ro ∧ dd.doc_number = d.doc_number ∧
      dd.project_id = d.project_id ∧
      p ∈ (create_transmittal tn dsc so ro [rid] cb now db).1.projects ∧
      p.id = dd.project_id ∧ p.org_id = so := by
  rw [send_single_absent tn dsc so ro rid cb now db src d hsrc hd habsent hlink]
  refine ⟨rfl,
    pointTo db.nextDocumentId db.nextRevisionId (replicaDoc ro now db d),
    List.mem_map.mpr ⟨replicaDoc ro now db d,
      List.mem_append_right _ (by simp), rfl⟩,
    ?_, ?_, ?_, hp, ?_, hporg⟩ <;>
  simp [pointTo, replicaDoc, hpid]

/-- A store with one sender-owned project, document and revision. -/
def senderProjectStore : DB :=
  { organizations := [], projects :=
      [{ id := 100, name := "P1", description := "", org_id := 1,
         created_at := 0 }],
    documents :=
      [{ id := 1, doc_number := "DN", title := "T", doc_type := "DT",
         status := "S", org_id := 1, project_id := 100,
         current_revision_id := some 1, created_at := 0 }],
    revisions :=
      [{ id := 1, document_id := 1, revision := "A", file_path := "f",
         uploaded_by := 7, uploaded_at := 0 }],
    events := [], transmittals := [], transmittal_documents := [],
    nextDocumentId := 2, nextRevisionId := 2, nextEventId := 1,
    nextTransmittalId := 1 }

/-- Witness for C10. -/
theorem claim10_witness :
    (create_transmittal "TR" "" 1 2 [1] 7 20 senderProjectStore).1.projects
      = senderProjectStore.projects ∧
    ∃ dd ∈ (create_transmittal "TR" "" 1 2 [1] 7 20 senderProjectStore).1.documents,
      dd.org_id = 2 ∧ dd.doc_number = "DN" ∧ dd.project_id = 100 ∧
      (⟨100, "P1", "", 1, 0⟩ : Project)
        ∈ (create_transmittal "TR" "" 1 2 [1] 7 20 senderProjectStore).1.projects ∧
      (⟨100, "P1", "", 1, 0⟩ : Project).id = dd.project_id ∧
      (⟨100, "P1", "", 1, 0⟩ : Project).org_id = 1 :=
  claim10_replica_project_id "TR" "" 1 2 1 7 20 senderProjectStore
    ⟨1, 1, "A", "f", 7, 0⟩
    ⟨1, "DN", "T", "DT", "S", 1, 100, some 1, 0⟩
    ⟨100, "P1", "", 1, 0⟩
    (by decide) (by decide) (by decide) (by decide) (by decide) (by decide) (by decide)

/-! ### C5: reconciliation is keyed on document identity, not revision -/

/-- The reconciliation predicate of `create_transmittal` (src/database.py:
528-531): same doc_number, owning organization and project. -/
def docMatch (dn : String) (oid pid : Nat) : Document → Bool :=
  fun dd => dd.doc_number == dn && dd.org_id == oid && dd.project_id == pid

theorem docMatch_pointTo (dn : String) (oid pid t n : Nat) (x : Document) :
    docMatch dn oid pid (pointTo t n x) = docMatch dn oid pid x := by
  unfold docMatch pointTo
  split <;> rfl

theorem filter_repointDoc (docs : List Document) (t n : Nat)
    (p : Document → Bool) (hp : ∀ x, p (pointTo t n x) = p x) :
    (repointDoc docs t n).filter p = (docs.filter p).map (pointTo t n) := by
  unfold repointDoc
  rw [List.filter_map]
  rw [show p ∘ pointTo t n = p from funext hp]

theorem sendLoop_cons_ok (tn : String) (ro cb now tid rid : Nat)
    (rest : List Nat) (s s1 : DB)
    (h : sendStep tn ro cb now tid s rid = .ok s1) :
    sendLoop tn ro cb now tid (rid :: rest) s =
      sendLoop tn ro cb now tid rest s1 := by
  rw [sendLoop_cons, h]

/-- **C5.**  Reconciliation is keyed on document identity: sending two
revisions `rid1 ≠ rid2` whose documents share `(doc_number, project_id)` to
a recipient with no matching document creates exactly one recipient-side
document; the second revision's replica is appended to the document the
first one created. -/
theorem claim5_reconciliation_by_identity (tn dsc : String) (so ro : Nat)
    (rid1 rid2 cb now : Nat) (db : DB)
    (src1 src2 : Revision) (d1 d2 : Document)
    (hne : rid1 ≠ rid2)
    (hsrc1 : db.revisions.find? (fun r => r.id == rid1) = some src1)
    (hd1 : db.documents.find? (fun x => x.id == src1.document_id) = some d1)
    (hsrc2 : db.revisions.find? (fun r => r.id == rid2) = some src2)
    (hd2 : db.documents.find? (fun x => x.id == src2.document_id) = some d2)
    (hdn : d2.doc_number = d1.doc_number) (hpj : d2.project_id = d1.project_id)
    (habsent : db.documents.find? (docMatch d1.doc_number ro d1.project_id) = none)
    (hlink : ∀ l ∈ db.transmittal_documents, l.transmittal_id ≠ db.nextTransmittalId)
    (hfresh : ∀ d ∈ db.documents, d.id ≠ db.nextDocumentId) :
    (create_transmittal tn dsc so ro [rid1, rid2] cb now db).2
      = .ok db.nextTransmittalId ∧
    (db.documents.filter (docMatch d1.doc_number ro d1.project_id)).length = 0 ∧
    ∃ dd,
      (create_transmittal tn dsc so ro [rid1, rid2] cb now db).1.documents.filter
        (docMatch d1.doc_number ro d1.project_id) = [dd] ∧
      (∃ rp1 ∈ (create_transmittal tn dsc so ro [rid1, rid2] cb now db).1.revisions,
        rp1.document_id = dd.id ∧ rp1.revision = src1.revision ∧
        rp1.file_path = src1.file_path) ∧
      (∃ rp2 ∈ (create_transmittal tn dsc so ro [rid1, rid2] cb now db).1.revisions,
        rp2.document_id = dd.id ∧ rp2.revision = src2.revision ∧
        rp2.file_path = src2.file_path) := by
  have hh1 : (db.transmittal_documents.any fun l =>
      l.transmittal_id == db.nextTransmittalId && l.revision_id == rid1) = false := by
    rw [List.any_eq_false]
    intro l hl
    simp [hlink l hl]
  have hstep1 : sendStep tn ro cb now db.nextTransmittalId
      { db with
        transmittals := db.transmittals ++
          [⟨db.nextTransmittalId, tn, dsc, so, ro, cb, now⟩],
        nextTransmittalId := db.nextTransmittalId + 1 } rid1 = .ok
      { db with
        transmittals := db.transmittals ++
          [⟨db.nextTransmittalId, tn, dsc, so, ro, cb, now⟩],
        nextTransmittalId := db.nextTransmittalId + 1,
        transmittal_documents := db.transmittal_documents ++
          [⟨db.nextTransmittalId, rid1⟩],
        events := db.events ++ [sentEvent tn ro cb now db src1 rid1],
        nextEventId := db.nextEventId + 1,
        documents := repointDoc (db.documents ++ [replicaDoc ro now db d1])
          db.nextDocumentId db.nextRevisionId,
        nextDocumentId := db.nextDocumentId + 1,
        revisions := db.revisions ++
          [⟨db.nextRevisionId, db.nextDocumentId, src1.revision,
            src1.file_path, cb, now⟩],
        nextRevisionId := db.nextRevisionId + 1 } :=
    sendStep_absent tn ro cb now db.nextTransmittalId
      { db with
        transmittals := db.transmittals ++
          [⟨db.nextTransmittalId, tn, dsc, so, ro, cb, now⟩],
        nextTransmittalId := db.nextTransmittalId + 1 }
      rid1 src1 d1 hh1 hsrc1 hd1 habsent
  have hh2 : ((db.transmittal_documents ++
      [(⟨db.nextTransmittalId, rid1⟩ : TransmittalDocument)]).any
      fun l => l.transmittal_id == db.nextTransmittalId && l.revision_id == rid2)
      = false := by
    rw [List.any_eq_false]
    intro l hl
    rcases List.mem_append.mp hl with hold | hnew
    · simp [hlink l hold]
    · simp only [List.mem_singleton] at hnew
      subst hnew
      simp [hne]
  have hh3 : ((db.revisions ++
      [(⟨db.nextRevisionId, db.nextDocumentId, src1.revision, src1.file_path,
        cb, now⟩ : Revision)]).find? (fun r => r.id == rid2)) = some src2 := by
    rw [List.find?_append, hsrc2]
    rfl
  have hptd2 : pointTo db.nextDocumentId db.nextRevisionId d2 = d2 := by
    simp [pointTo, hfresh d2 (List.mem_of_find?_eq_some hd2)]
  have hh4 : ((repointDoc (db.documents ++ [replicaDoc ro now db d1])
      db.nextDocumentId db.nextRevisionId).find?
      (fun x => x.id == src2.document_id)) = some d2 := by
    rw [find?_id_repointDoc, List.find?_append, hd2]
    simp only [Option.or_some, Option.map_some']
    rw [hptd2]
  have hnone2 : db.documents.find? (docMatch d2.doc_number ro d2.project_id)
      = none := by
    rw [List.find?_eq_none]
    intro x hx
    have := List.find?_eq_none.mp habsent x hx
    simpa [docMatch, hdn, hpj] using this
  have hqnd2 : docMatch d2.doc_number ro d2.project_id (replicaDoc ro now db d1)
      = true := by
    simp [docMatch, replicaDoc, hdn, hpj]
  have hh5 : ((repointDoc (db.documents ++ [replicaDoc ro now db d1])
      db.nextDocumentId db.nextRevisionId).find?
      (docMatch d2.doc_number ro d2.project_id))
      = some (pointTo db.nextDocumentId db.nextRevisionId
          (replicaDoc ro now db d1)) := by
    rw [find?_repointDoc _ _ _ _ (fun x => docMatch_pointTo _ _ _ _ _ x),
      List.find?_append, hnone2]
    simp only [Option.none_or, List.find?_cons_of_pos _ hqnd2, Option.map_some']
  have hstep2 : sendStep tn ro cb now db.nextTransmittalId
      { db with
        transmittals := db.transmittals ++
          [⟨db.nextTransmittalId, tn, dsc, so, ro, cb, now⟩],
        nextTransmittalId := db.nextTransmittalId + 1,
        transmittal_documents := db.transmittal_documents ++
          [⟨db.nextTransmittalId, rid1⟩],
        events := db.events ++ [sentEvent tn ro cb now db src1 rid1],
        nextEventId := db.nextEventId + 1,
        documents := repointDoc (db.documents ++ [replicaDoc ro now db d1])
          db.nextDocumentId db.nextRevisionId,
        nextDocumentId := db.nextDocumentId + 1,
        revisions := db.revisions ++
          [⟨db.nextRevisionId, db.nextDocumentId, src1.revision,
            src1.file_path, cb, now⟩],
        nextRevisionId := db.nextRevisionId + 1 } rid2 = .ok
      { db with
        transmittals := db.transmittals ++
          [⟨db.nextTransmittalId, tn, dsc, so, ro, cb, now⟩],
        nextTransmittalId := db.nextTransmittalId + 1,
        transmittal_documents := db.transmittal_documents ++
          [⟨db.nextTransmittalId, rid1⟩] ++ [⟨db.nextTransmittalId, rid2⟩],
        events := db.events ++ [sentEvent tn ro cb now db src1 rid1] ++
          [⟨db.nextEventId + 1, src2.document_id, some rid2, cb, "Sent", now,
            some ("Transmittal " ++ tn ++ " sent to org " ++ toString ro)⟩],
        nextEventId := db.nextEventId + 1 + 1,
        revisions := db.revisions ++
          [⟨db.nextRevisionId, db.nextDocumentId, src1.revision,
            src1.file_path, cb, now⟩] ++
          [⟨db.nextRevisionId + 1,
            (pointTo db.nextDocumentId db.nextRevisionId
              (replicaDoc ro now db d1)).id,
            src2.revision, src2.file_path, cb, now⟩],
        nextRevisionId := db.nextRevisionId + 1 + 1,
        documents := repointDoc
          (repointDoc (db.documents ++ [replicaDoc ro now db d1])
            db.nextDocumentId db.nextRevisionId)
          (pointTo db.nextDocumentId db.nextRevisionId
            (replicaDoc ro now db d1)).id
          (db.nextRevisionId + 1),
        nextDocumentId := db.nextDocumentId + 1 } :=
    sendStep_present tn ro cb now db.nextTransmittalId
      { db with
        transmittals := db.transmittals ++
          [⟨db.nextTransmittalId, tn, dsc, so, ro, cb, now⟩],
        nextTransmittalId := db.nextTransmittalId + 1,
        transmittal_documents := db.transmittal_documents ++
          [⟨db.nextTransmittalId, rid1⟩],
        events := db.events ++ [sentEvent tn ro cb now db src1 rid1],
        nextEventId := db.nextEventId + 1,
        documents := repointDoc (db.documents ++ [replicaDoc ro now db d1])
          db.nextDocumentId db.nextRevisionId,
        nextDocumentId := db.nextDocumentId + 1,
        revisions := db.revisions ++
          [⟨db.nextRevisionId, db.nextDocumentId, src1.revision,
            src1.file_path, cb, now⟩],
        nextRevisionId := db.nextRevisionId + 1 }
      rid2 src2 d2
      (pointTo db.nextDocumentId db.nextRevisionId (replicaDoc ro now db d1))
      hh2 hh3 hh4 hh5
  have hloop : sendLoop tn ro cb now db.nextTransmittalId [rid1, rid2]
      { db with
        transmittals := db.transmittals ++
          [⟨db.nextTransmittalId, tn, dsc, so, ro, cb, now⟩],
        nextTransmittalId := db.nextTransmittalId + 1 } = .ok
      { db with
        transmittals := db.transmittals ++
          [⟨db.nextTransmittalId, tn, dsc, so, ro, cb, now⟩],
        nextTransmittalId := db.nextTransmittalId + 1,
        transmittal_documents := db.transmittal_documents ++
          [⟨db.nextTransmittalId, rid1⟩] ++ [⟨db.nextTransmittalId, rid2⟩],
        events := db.events ++ [sentEvent tn ro cb now db src1 rid1] ++
          [⟨db.nextEventId + 1, src2.document_id, some rid2, cb, "Sent", now,
            some ("Transmittal " ++ tn ++ " sent to org " ++ toString ro)⟩],
        nextEventId := db.nextEventId + 1 + 1,
        revisions := db.revisions ++
          [⟨db.nextRevisionId, db.nextDocumentId, src1.revision,
            src1.file_path, cb, now⟩] ++
          [⟨db.nextRevisionId + 1,
            (pointTo db.nextDocumentId db.nextRevisionId
              (replicaDoc ro now db d1)).id,
            src2.revision, src2.file_path, cb, now⟩],
        nextRevisionId := db.nextRevisionId + 1 + 1,
        documents := repointDoc
          (repointDoc (db.documents ++ [replicaDoc ro now db d1])
            db.nextDocumentId db.nextRevisionId)
          (pointTo db.nextDocumentId db.nextRevisionId
            (replicaDoc ro now db d1)).id
          (db.nextRevisionId + 1),
        nextDocumentId := db.nextDocumentId + 1 } := by
    rw [sendLoop_cons_ok tn ro cb now db.nextTransmittalId rid1 [rid2] _ _ hstep1,
      sendLoop_cons_ok tn ro cb now db.nextTransmittalId rid2 [] _ _ hstep2,
      sendLoop_nil]
  have hfnil : db.documents.filter (docMatch d1.doc_number ro d1.project_id)
      = [] :=
    List.filter_eq_nil_iff.mpr (fun a ha => List.find?_eq_none.mp habsent a ha)
  have hqnd : docMatch d1.doc_number ro d1.project_id (replicaDoc ro now db d1)
      = true := by
    simp [docMatch, replicaDoc]
  refine ⟨?_, ?_, ?_⟩
  · unfold create_transmittal
    simp only [hloop]
  · rw [hfnil]
    rfl
  · unfold create_transmittal
    simp only [hloop]
    have hfilter : (repointDoc
        (repointDoc (db.documents ++ [replicaDoc ro now db d1])
          db.nextDocumentId db.nextRevisionId)
        (pointTo db.nextDocumentId db.nextRevisionId
          (replicaDoc ro now db d1)).id
        (db.nextRevisionId + 1)).filter (docMatch d1.doc_number ro d1.project_id)
        = [pointTo
            (pointTo db.nextDocumentId db.nextRevisionId
              (replicaDoc ro now db d1)).id
            (db.nextRevisionId + 1)
            (pointTo db.nextDocumentId db.nextRevisionId
              (replicaDoc ro now db d1))] := by
      rw [filter_repointDoc _ _ _ _ (fun x => docMatch_pointTo _ _ _ _ _ x),
        filter_repointDoc _ _ _ _ (fun x => docMatch_pointTo _ _ _ _ _ x),
        List.filter_append, hfnil]
      simp [hqnd]
    refine ⟨_, hfilter,
      ⟨⟨db.nextRevisionId, db.nextDocumentId, src1.revision, src1.file_path,
        cb, now⟩,
        List.mem_append_left _ (List.mem_append_right _ (List.mem_singleton_self _)),
        ?_, rfl, rfl⟩,
      ⟨⟨db.nextRevisionId + 1,
        (pointTo db.nextDocumentId db.nextRevisionId
          (replicaDoc ro now db d1)).id,
        src2.revision, src2.file_path, cb, now⟩,
        List.mem_append_right _ (List.mem_singleton_self _),
        ?_, rfl, rfl⟩⟩
    · simp [pointTo_id, replicaDoc]
    · simp [pointTo_id]

/-- Witness for C5: two revisions of the same document, one recipient. -/
theorem claim5_witness :
    (create_transmittal "TR" "" 1 2 [1, 2] 7 30
      (add_document_revision 1 "B" "g" 7 20
        (create_document "DN" "T" "DT" "S" 1 1 "A" "f" 7 10 DB.empty).1).1).2
      = .ok 1 ∧
    ((add_document_revision 1 "B" "g" 7 20
        (create_document "DN" "T" "DT" "S" 1 1 "A" "f" 7 10 DB.empty).1).1.documents.filter
      (docMatch "DN" 2 1)).length = 0 ∧
    ∃ dd,
      (create_transmittal "TR" "" 1 2 [1, 2] 7 30
        (add_document_revision 1 "B" "g" 7 20
          (create_document "DN" "T" "DT" "S" 1 1 "A" "f" 7 10 DB.empty).1).1).1.documents.filter
        (docMatch "DN" 2 1) = [dd] ∧
      (∃ rp1 ∈ (create_transmittal "TR" "" 1 2 [1, 2] 7 30
          (add_document_revision 1 "B" "g" 7 20
            (create_document "DN" "T" "DT" "S" 1 1 "A" "f" 7 10 DB.empty).1).1).1.revisions,
        rp1.document_id = dd.id ∧ rp1.revision = "A" ∧ rp1.file_path = "f") ∧
      (∃ rp2 ∈ (create_transmittal "TR" "" 1 2 [1, 2] 7 30
          (add_document_revision 1 "B" "g" 7 20
            (create_document "DN" "T" "DT" "S" 1 1 "A" "f" 7 10 DB.empty).1).1).1.revisions,
        rp2.document_id = dd.id ∧ rp2.revision = "B" ∧ rp2.file_path = "g") :=
  claim5_reconciliation_by_identity "TR" "" 1 2 1 2 7 30
    (add_document_revision 1 "B" "g" 7 20
      (create_document "DN" "T" "DT" "S" 1 1 "A" "f" 7 10 DB.empty).1).1
    ⟨1, 1, "A", "f", 7, 10⟩ ⟨2, 1, "B", "g", 7, 20⟩
    ⟨1, "DN", "T", "DT", "S", 1, 1, some 2, 10⟩
    ⟨1, "DN", "T", "DT", "S", 1, 1, some 2, 10⟩
    (by decide) (by decide) (by decide) (by decide) (by decide)
    (by decide) (by decide) (by decide) (by decide) (by decide)

/-! ### C8: N successive addRevision calls -/

/-- Apply a sequence of `addRevision` calls (label, file path, uploader,
timestamp) to one document id. -/
def applyRevisions (did : Nat) : List (String × String × Nat × Nat) → DB → DB
  | [], s => s
  | c :: rest, s =>
    applyRevisions did rest (add_document_revision did c.1 c.2.1 c.2.2.1 c.2.2.2 s).1

/-- Invariant carried across the `addRevision` calls: `pairs` is the
(label, timestamp) sequence of the document's revisions in insertion
order, the current-revision label is the last of them, the document row
exists, and revision ids stay below the allocator. -/
structure RevTrack (did : Nat) (s : DB) (pairs : List (String × Nat)) : Prop where
  ids : ∀ r ∈ s.revisions, r.id < s.nextRevisionId
  pos : 0 < s.nextRevisionId
  doc : (s.documents.find? (fun x => x.id == did)).isSome
  filt : (s.revisions.filter (fun r => r.document_id == did)).map
    (fun r => (r.revision, r.uploaded_at)) = pairs
  label : getCurrentRevisionLabel s did = pairs.getLast?.map (fun p => p.1)

theorem revtrack_step (did : Nat) (rl fp : String) (ub t : Nat) (s : DB)
    (pairs : List (String × Nat)) (h : RevTrack did s pairs) :
    RevTrack did (add_document_revision did rl fp ub t s).1 (pairs ++ [(rl, t)]) := by
  rw [add_document_revision_eq]
  obtain ⟨dcur, hdcur⟩ := Option.isSome_iff_exists.mp h.doc
  have hdid0 := List.find?_some hdcur
  have hdid : (dcur.id == did) = true := hdid0
  constructor
  · intro r hr
    rcases List.mem_append.mp hr with hold | hnew
    · exact Nat.lt_succ_of_lt (h.ids r hold)
    · simp only [List.mem_singleton] at hnew
      subst hnew
      exact Nat.lt_succ_self _
  · exact Nat.lt_succ_of_lt h.pos
  · rw [find?_id_repointDoc, hdcur]
    rfl
  · rw [List.filter_append, List.map_append, h.filt]
    simp
  · unfold getCurrentRevisionLabel get_document get_revision
    rw [find?_id_repointDoc, hdcur]
    simp only [Option.map_some']
    have hpt : pointTo did s.nextRevisionId dcur =
        { dcur with current_revision_id := some s.nextRevisionId } := by
      simp [pointTo, hdid]
    rw [hpt]
    simp only [Option.some_bind]
    rw [if_neg (by simp [Nat.pos_iff_ne_zero.mp h.pos])]
    rw [find?_append_singleton_of_none _ _ _
      (fun r hr => by simp [Nat.ne_of_lt (h.ids r hr)]) (by simp)]
    rw [List.getLast?_concat]
    rfl

theorem revtrack_apply (did : Nat) :
    ∀ (calls : List (String × String × Nat × Nat)) (s : DB)
      (pairs : List (String × Nat)), RevTrack did s pairs →
    RevTrack did (applyRevisions did calls s)
      (pairs ++ calls.map (fun c => (c.1, c.2.2.2)))
  | [], s, pairs, h => by
    rw [List.map_nil, List.append_nil]
    exact h
  | c :: rest, s, pairs, h => by
    have h2 := revtrack_apply did rest _ _
      (revtrack_step did c.1 c.2.1 c.2.2.1 c.2.2.2 s pairs h)
    rw [List.append_assoc] at h2
    exact h2

theorem orderedInsert_eq_append (a : Revision) :
    ∀ (l : List Revision), (∀ b ∈ l, ¬ newerFirst a b) →
      List.orderedInsert newerFirst a l = l ++ [a]
  | [], _ => rfl
  | b :: t, h => by
    show (if newerFirst a b then a :: b :: t
      else b :: List.orderedInsert newerFirst a t) = (b :: t) ++ [a]
    rw [if_neg (h b (by simp))]
    rw [orderedInsert_eq_append a t (fun x hx => h x (by simp [hx]))]
    rfl

/-- Sorting newest-first is just reversal when the upload timestamps are
strictly increasing in insertion order. -/
theorem insertionSort_newerFirst_of_ascending :
    ∀ (l : List Revision),
      l.Pairwise (fun a b => a.uploaded_at < b.uploaded_at) →
      List.insertionSort newerFirst l = l.reverse
  | [], _ => rfl
  | a :: t, h => by
    obtain ⟨ha, ht⟩ := List.pairwise_cons.mp h
    show List.orderedInsert newerFirst a (List.insertionSort newerFirst t)
      = (a :: t).reverse
    rw [insertionSort_newerFirst_of_ascending t ht, List.reverse_cons]
    exact orderedInsert_eq_append a t.reverse
      (fun b hb => Nat.not_le.mpr (ha b (List.mem_reverse.mp hb)))

theorem pairs_getLast_fst (rl : String) (now0 : Nat)
    (calls : List (String × String × Nat × Nat)) :
    (((rl, now0) :: calls.map (fun c => (c.1, c.2.2.2))).getLast?).map
      (fun p => p.1) = some ((calls.map (fun c => c.1)).getLastD rl) := by
  induction calls generalizing rl now0 with
  | nil => rfl
  | cons c cs ih =>
    simp only [List.map_cons, List.getLast?_cons_cons, List.getLastD_cons]
    exact ih c.1 c.2.2.2

/-- **C8.**  A document created by `createDocument` and then mutated by N
successive `addRevision` calls with strictly increasing upload timestamps:
`listRevisions` returns exactly N+1 entries — the initial revision plus one
per call — ordered newest-first by upload timestamp, and
`getCurrentRevisionLabel` equals the label supplied to the most recent
call (the labels themselves are arbitrary strings).  The freshness
hypotheses hold in every reachable state. -/
theorem claim8_addRevision_sequence (dn ti dt st : String) (oid pid : Nat)
    (rl fp : String) (ub now0 : Nat) (db : DB) (did : Nat)
    (calls : List (String × String × Nat × Nat))
    (hok : (create_document dn ti dt st oid pid rl fp ub now0 db).2 = .ok did)
    (hdocfresh : ∀ d ∈ db.documents, d.id ≠ db.nextDocumentId)
    (horphan : ∀ r ∈ db.revisions, r.document_id ≠ db.nextDocumentId)
    (hrevid : ∀ r ∈ db.revisions, r.id < db.nextRevisionId)
    (hpos : 0 < db.nextRevisionId)
    (htimes : List.Chain (fun a b : Nat => a < b) now0
      (calls.map (fun c => c.2.2.2))) :
    (get_revisions_for_document
      (applyRevisions did calls
        (create_document dn ti dt st oid pid rl fp ub now0 db).1) did).length
      = calls.length + 1 ∧
    (get_revisions_for_document
      (applyRevisions did calls
        (create_document dn ti dt st oid pid rl fp ub now0 db).1) did).map
      (fun r => (r.revision, r.uploaded_at))
      = ((rl, now0) :: calls.map (fun c => (c.1, c.2.2.2))).reverse ∧
    List.Pairwise (fun a b : Revision => b.uploaded_at < a.uploaded_at)
      (get_revisions_for_document
        (applyRevisions did calls
          (create_document dn ti dt st oid pid rl fp ub now0 db).1) did) ∧
    getCurrentRevisionLabel
      (applyRevisions did calls
        (create_document dn ti dt st oid pid rl fp ub now0 db).1) did
      = some ((calls.map (fun c => c.1)).getLastD rl) := by
  have hnz : db.nextRevisionId ≠ 0 := Nat.pos_iff_ne_zero.mp hpos
  by_cases hc : (db.documents.any fun d =>
      d.doc_number == dn && d.org_id == oid && d.project_id == pid) = true
  · rw [create_document_error dn ti dt st oid pid rl fp ub now0 db hc] at hok
    exact absurd hok (by simp)
  · have hc' : (db.documents.any fun d =>
        d.doc_number == dn && d.org_id == oid && d.project_id == pid) = false := by
      rwa [Bool.not_eq_true] at hc
    rw [create_document_ok dn ti dt st oid pid rl fp ub now0 db hc'] at hok
    simp only [Except.ok.injEq] at hok
    subst hok
    have hbase : RevTrack db.nextDocumentId
        (create_document dn ti dt st oid pid rl fp ub now0 db).1 [(rl, now0)] := by
      rw [create_document_ok dn ti dt st oid pid rl fp ub now0 db hc']
      constructor
      · intro r hr
        rcases List.mem_append.mp hr with hold | hnew
        · exact Nat.lt_succ_of_lt (hrevid r hold)
        · simp only [List.mem_singleton] at hnew
          subst hnew
          exact Nat.lt_succ_self _
      · exact Nat.lt_succ_of_lt hpos
      · rw [find?_id_repointDoc, find?_append_singleton_of_none _ _ _
          (fun d hd => by simp [hdocfresh d hd]) (by simp)]
        rfl
      · rw [List.filter_append, List.filter_eq_nil_iff.mpr
          (fun r hr => by simp [horphan r hr])]
        simp
      · unfold getCurrentRevisionLabel get_document get_revision
        rw [find?_id_repointDoc, find?_append_singleton_of_none _ _ _
          (fun d hd => by simp [hdocfresh d hd]) (by simp)]
        simp only [Option.map_some', pointTo, beq_self_eq_true, if_true,
          Option.some_bind]
        rw [find?_append_singleton_of_none _ _ _
          (fun r hr => by simp [Nat.ne_of_lt (hrevid r hr)]) (by simp)]
        simp [hnz]
    have htrack := revtrack_apply db.nextDocumentId calls _ _ hbase
    rw [List.singleton_append] at htrack
    have hmap : ((applyRevisions db.nextDocumentId calls
        (create_document dn ti dt st oid pid rl fp ub now0 db).1).revisions.filter
        (fun r => r.document_id == db.nextDocumentId)).map (fun r => r.uploaded_at)
        = now0 :: calls.map (fun c => c.2.2.2) := by
      have hcongr := congrArg (List.map (fun p : String × Nat => p.2)) htrack.filt
      simpa [List.map_map, Function.comp] using hcongr
    have hasc : List.Pairwise (fun a b : Revision => a.uploaded_at < b.uploaded_at)
        ((applyRevisions db.nextDocumentId calls
          (create_document dn ti dt st oid pid rl fp ub now0 db).1).revisions.filter
          (fun r => r.document_id == db.nextDocumentId)) := by
      have hp := List.chain_iff_pairwise.mp htimes
      rw [← hmap] at hp
      exact List.pairwise_map.mp hp
    have hsort : get_revisions_for_document
        (applyRevisions db.nextDocumentId calls
          (create_document dn ti dt st oid pid rl fp ub now0 db).1)
        db.nextDocumentId
        = ((applyRevisions db.nextDocumentId calls
          (create_document dn ti dt st oid pid rl fp ub now0 db).1).revisions.filter
          (fun r => r.document_id == db.nextDocumentId)).reverse := by
      unfold get_revisions_for_document
      exact insertionSort_newerFirst_of_ascending _ hasc
    refine ⟨?_, ?_, ?_, ?_⟩
    · rw [hsort, List.length_reverse]
      have hlen := congrArg List.length htrack.filt
      simpa using hlen
    · rw [hsort, List.map_reverse, htrack.filt]
    · rw [hsort]
      exact List.pairwise_reverse.mpr hasc
    · rw [htrack.label]
      exact pairs_getLast_fst rl now0 calls

/-- Witness for C8: one `addRevision` call after `createDocument`. -/
theorem claim8_witness :
    (get_revisions_for_document
      (applyRevisions 1 [("B", "g", 7, 20)]
        (create_document "DN" "T" "DT" "S" 1 1 "A" "f" 7 10 DB.empty).1) 1).length
      = [("B", "g", 7, 20)].length + 1 ∧
    (get_revisions_for_document
      (applyRevisions 1 [("B", "g", 7, 20)]
        (create_document "DN" "T" "DT" "S" 1 1 "A" "f" 7 10 DB.empty).1) 1).map
      (fun r => (r.revision, r.uploaded_at))
      = (("A", 10) :: [("B", "g", 7, 20)].map (fun c => (c.1, c.2.2.2))).reverse ∧
    List.Pairwise (fun a b : Revision => b.uploaded_at < a.uploaded_at)
      (get_revisions_for_document
        (applyRevisions 1 [("B", "g", 7, 20)]
          (create_document "DN" "T" "DT" "S" 1 1 "A" "f" 7 10 DB.empty).1) 1) ∧
    getCurrentRevisionLabel
      (applyRevisions 1 [("B", "g", 7, 20)]
        (create_document "DN" "T" "DT" "S" 1 1 "A" "f" 7 10 DB.empty).1) 1
      = some (([("B", "g", 7, 20)].map (fun c => c.1)).getLastD "A") :=
  claim8_addRevision_sequence "DN" "T" "DT" "S" 1 1 "A" "f" 7 10 DB.empty 1
    [("B", "g", 7, 20)]
    (by decide) (by decide) (by decide) (by decide) (by decide)
    (List.Chain.cons (by decide) List.Chain.nil)
